import Mathlib

/-!
# Sapliy CLI: webhook listener, event-type matcher and event poller

A shallow embedding of `pkg/cmd/listen.go` and of the poll loop of `pkg/cmd/debug.go`.

Go strings and byte slices are sequences of bytes, so both are modelled as
`List Byte`.  String literals of the source are written `str "..."`, the UTF-8
encoding of the literal, which is what the Go compiler stores.
-/

namespace Sapliy

/-! ## Bytes and strings -/

/-- One byte of a Go `string` or `[]byte`. -/
abbrev Byte := Fin 256

/-- A Go `string`: a finite sequence of bytes (not necessarily valid UTF-8). -/
abbrev GoString := List Byte

/-- Truncation of a natural number to a byte. -/
def toByte (n : Nat) : Byte := ⟨n % 256, Nat.mod_lt _ (by decide)⟩

/-- UTF-8 encoding of one code point. -/
def utf8EncodeChar (c : Char) : List Byte :=
  let n := c.toNat
  if n < 0x80 then [toByte n]
  else if n < 0x800 then [toByte (0xC0 + n / 64), toByte (0x80 + n % 64)]
  else if n < 0x10000 then
    [toByte (0xE0 + n / 4096), toByte (0x80 + n / 64 % 64), toByte (0x80 + n % 64)]
  else
    [toByte (0xF0 + n / 262144), toByte (0x80 + n / 4096 % 64),
     toByte (0x80 + n / 64 % 64), toByte (0x80 + n % 64)]

/-- UTF-8 encoding of a list of code points. -/
def utf8Encode : List Char → GoString
  | [] => []
  | c :: cs => utf8EncodeChar c ++ utf8Encode cs

/-- The bytes of a source-level string literal. -/
def str (s : String) : GoString := utf8Encode s.data

/-! ## Package `strings` -/

namespace strings

/-- Go `strings.HasPrefix`: `len(s) >= len(prefix) && s[:len(prefix)] == prefix`. -/
def HasPrefix (s pfx : GoString) : Bool :=
  decide (s.length ≥ pfx.length) && (s.take pfx.length == pfx)

/-- Go `strings.HasSuffix`: `len(s) >= len(suffix) && s[len(s)-len(suffix):] == suffix`. -/
def HasSuffix (s suffix : GoString) : Bool :=
  decide (s.length ≥ suffix.length) && (s.drop (s.length - suffix.length) == suffix)

/-- Go `strings.TrimSuffix`: `s[:len(s)-len(suffix)]` when `s` ends in `suffix`,
otherwise `s` unchanged. -/
def TrimSuffix (s suffix : GoString) : GoString :=
  if HasSuffix s suffix then s.take (s.length - suffix.length) else s

/-- Go `strings.Repeat`: `count` copies of `s`. -/
def Repeat (s : GoString) : Nat → GoString
  | 0 => []
  | n + 1 => s ++ Repeat s n

/-- Go `strings.Index`: the index of the first instance of `substr` in `s`, or `-1` if
`substr` is not present in `s`. -/
def Index (s substr : GoString) : Int :=
  if HasPrefix s substr then 0
  else
    match s with
    | [] => -1
    | _ :: t => if Index t substr < 0 then -1 else Index t substr + 1

/-- Go `strings.Contains`: `Index(s, substr) >= 0`. -/
def Contains (s substr : GoString) : Bool :=
  decide (Index s substr ≥ 0)

end strings

/-! ## `matchPattern` (listen.go, lines 153-166) -/

/-- The event-type matcher: `"*"` matches everything, a pattern ending in `".*"` matches
by prefix, any other pattern matches by equality. -/
def matchPattern (eventType pattern : GoString) : Bool :=
  if pattern == str "*" then
    true
  else if strings.HasSuffix pattern (str ".*") then
    let pfx := strings.TrimSuffix pattern (str ".*")
    strings.HasPrefix eventType (pfx ++ str ".")
  else
    eventType == pattern

/-! ## Packages `crypto/sha256`, `crypto/hmac`, `encoding/hex`

The digest the handler obtains from the standard library, with `uint32` arithmetic written
as natural numbers reduced modulo `2^32`. -/

namespace sha256

/-- The round constants `_K` (`0x428a2f98`, `0x71374491`, ..., `0xc67178f2`), in decimal. -/
def K : List Nat := [
  1116352408, 1899447441, 3049323471, 3921009573, 961987163, 1508970993,
  2453635748, 2870763221, 3624381080, 310598401, 607225278, 1426881987,
  1925078388, 2162078206, 2614888103, 3248222580, 3835390401, 4022224774,
  264347078, 604807628, 770255983, 1249150122, 1555081692, 1996064986,
  2554220882, 2821834349, 2952996808, 3210313671, 3336571891, 3584528711,
  113926993, 338241895, 666307205, 773529912, 1294757372, 1396182291,
  1695183700, 1986661051, 2177026350, 2456956037, 2730485921, 2820302411,
  3259730800, 3345764771, 3516065817, 3600352804, 4094571909, 275423344,
  430227734, 506948616, 659060556, 883997877, 958139571, 1322822218,
  1537002063, 1747873779, 1955562222, 2024104815, 2227730452, 2361852424,
  2428436474, 2756734187, 3204031479, 3329325298]

/-- The eight working registers / chaining values, each a `uint32`. -/
structure Regs where
  a : Nat
  b : Nat
  c : Nat
  d : Nat
  e : Nat
  f : Nat
  g : Nat
  h : Nat

/-- The initial hash value. -/
def init : Regs :=
  ⟨0x6a09e667, 0xbb67ae85, 0x3c6ef372, 0xa54ff53a, 0x510e527f, 0x9b05688c, 0x1f83d9ab, 0x5be0cd19⟩

/-- Addition of two `uint32` values, wrapping at `2^32`. -/
def add32 (x y : Nat) : Nat := (x + y) % 4294967296

/-- Rotation to the right, `bits.RotateLeft32(x, -n)`, for `0 < n < 32`. -/
def rotr (x n : Nat) : Nat := ((x >>> n) ||| (x <<< (32 - n))) % 4294967296

/-- Big-endian load of one `uint32` from the first four bytes. -/
def beWord : List Byte → Nat
  | b0 :: b1 :: b2 :: b3 :: _ => b0.val <<< 24 ||| b1.val <<< 16 ||| b2.val <<< 8 ||| b3.val
  | _ => 0

/-- The first `n` big-endian words of a chunk: `w[0..15]` for `n = 16`. -/
def loadWords : Nat → List Byte → List Nat
  | 0, _ => []
  | n + 1, p => beWord p :: loadWords n (p.drop 4)

/-- Extends the schedule kept newest-first: `w[i] = t1 + w[i-7] + t2 + w[i-16]`. -/
def extend : Nat → List Nat → List Nat
  | 0, rw => rw
  | n + 1, rw =>
    let v1 := rw.getD 1 0
    let t1 := rotr v1 17 ^^^ rotr v1 19 ^^^ (v1 >>> 10)
    let v2 := rw.getD 14 0
    let t2 := rotr v2 7 ^^^ rotr v2 18 ^^^ (v2 >>> 3)
    extend n (add32 (add32 (add32 t1 (rw.getD 6 0)) t2) (rw.getD 15 0) :: rw)

/-- The 64-word message schedule `w` of one 64-byte chunk. -/
def schedule (p : List Byte) : List Nat := (extend 48 (loadWords 16 p).reverse).reverse

/-- One round of the compression loop with round constant `k` and schedule word `w`. -/
def round (r : Regs) (k w : Nat) : Regs :=
  let t1 := add32 (add32 (add32 (add32 r.h (rotr r.e 6 ^^^ rotr r.e 11 ^^^ rotr r.e 25))
    ((r.e &&& r.f) ^^^ ((r.e ^^^ 0xffffffff) &&& r.g))) k) w
  let t2 := add32 (rotr r.a 2 ^^^ rotr r.a 13 ^^^ rotr r.a 22)
    ((r.a &&& r.b) ^^^ (r.a &&& r.c) ^^^ (r.b &&& r.c))
  ⟨add32 t1 t2, r.a, r.b, r.c, add32 r.d t1, r.e, r.f, r.g⟩

/-- The 64 rounds, consuming `_K` and the schedule in step. -/
def rounds : Regs → List Nat → List Nat → Regs
  | r, k :: ks, w :: ws => rounds (round r k w) ks ws
  | r, _, _ => r

/-- The compression of one chunk into the chaining value (one pass of `blockGeneric`). -/
def block (hh : Regs) (p : List Byte) : Regs :=
  let r := rounds hh K (schedule p)
  ⟨add32 hh.a r.a, add32 hh.b r.b, add32 hh.c r.c, add32 hh.d r.d,
   add32 hh.e r.e, add32 hh.f r.f, add32 hh.g r.g, add32 hh.h r.h⟩

/-- Go `for len(p) >= chunk`: compresses `n` consecutive 64-byte chunks of `p`. -/
def blocks : Nat → Regs → List Byte → Regs
  | 0, hh, _ => hh
  | n + 1, hh, p => blocks n (block hh (p.take 64)) (p.drop 64)

/-- The padding written by `checkSum`: `0x80`, zeros up to 56 bytes modulo 64, then the
message length in bits as a big-endian `uint64`. -/
def padding (len : Nat) : List Byte :=
  let t := if len % 64 < 56 then 56 - len % 64 else 64 + 56 - len % 64
  let bits := (len * 8) % 18446744073709551616
  toByte 0x80 :: List.replicate (t - 1) (toByte 0) ++
    [toByte (bits >>> 56), toByte (bits >>> 48), toByte (bits >>> 40), toByte (bits >>> 32),
     toByte (bits >>> 24), toByte (bits >>> 16), toByte (bits >>> 8), toByte bits]

/-- Big-endian store of one `uint32`. -/
def beBytes (x : Nat) : List Byte :=
  [toByte (x >>> 24), toByte (x >>> 16), toByte (x >>> 8), toByte x]

/-- The SHA-256 digest of `data`: 32 bytes. -/
def Sum256 (data : List Byte) : List Byte :=
  let p := data ++ padding data.length
  let r := blocks (p.length / 64) init p
  beBytes r.a ++ beBytes r.b ++ beBytes r.c ++ beBytes r.d ++
  beBytes r.e ++ beBytes r.f ++ beBytes r.g ++ beBytes r.h

end sha256

namespace hmac

/-- The key block xor-ed with the inner (`0x36`) or outer (`0x5c`) pad byte. -/
def xorPad (key : List Byte) (c : Nat) : List Byte := key.map (fun b => toByte (b.val ^^^ c))

/-- HMAC-SHA256 as `hmac.New(sha256.New, key)`, `Write(msg)`, `Sum(nil)` computes it: a key
longer than the 64-byte block is hashed first, then zero-padded to the block size. -/
def SumSHA256 (key msg : List Byte) : List Byte :=
  let k0 := if key.length > 64 then sha256.Sum256 key else key
  let k := k0 ++ List.replicate (64 - k0.length) (toByte 0)
  sha256.Sum256 (xorPad k 0x5c ++ sha256.Sum256 (xorPad k 0x36 ++ msg))
end hmac

namespace hex

/-- The lowercase digit table of `encoding/hex`. -/
def hextable : List Byte := str "0123456789abcdef"

/-- Go `hex.EncodeToString`: two lowercase hexadecimal digits per byte, high nibble first. -/
def EncodeToString (src : List Byte) : GoString :=
  match src with
  | [] => []
  | v :: rest =>
    hextable.getD (v.val >>> 4) 0 :: hextable.getD (v.val &&& 0x0f) 0 :: EncodeToString rest
end hex

/-! ## Packages `net/textproto` and `net/http` -/

namespace http

/-- The bytes allowed in a header field name (an RFC 7230 token). -/
def validHeaderFieldByte (c : Byte) : Bool :=
  decide (48 ≤ c.val ∧ c.val ≤ 57) || decide (65 ≤ c.val ∧ c.val ≤ 90) ||
  decide (97 ≤ c.val ∧ c.val ≤ 122) || (str "!#$%&\x27*+-.^_\x60|~").contains c

/-- The canonicalising loop of `canonicalMIMEHeaderKey`: upper case for the first letter and
for a letter after `-`, lower case elsewhere. -/
def canonicalize : Bool → List Byte → List Byte
  | _, [] => []
  | upper, c :: cs =>
    let c1 : Byte :=
      if upper && decide (97 ≤ c.val ∧ c.val ≤ 122) then toByte (c.val - 32)
      else if !upper && decide (65 ≤ c.val ∧ c.val ≤ 90) then toByte (c.val + 32)
      else c
    c1 :: canonicalize (c1 == toByte 45) cs

/-- Go `textproto.CanonicalMIMEHeaderKey`: a key made of valid field bytes is put in
canonical case, any other key is returned unchanged. -/
def CanonicalMIMEHeaderKey (s : GoString) : GoString :=
  if s.all validHeaderFieldByte then canonicalize true s else s

/-- Go `http.Header`, a `map[string][]string` keyed by canonical field name, as an
association list read by first match. -/
abbrev Header := List (GoString × List GoString)

/-- Go `Header.Get`: the first value stored under the canonical form of `key`, or `""` when
the key has no value. -/
def Header.Get (h : Header) (key : GoString) : GoString :=
  match h.lookup (CanonicalMIMEHeaderKey key) with
  | some (v :: _) => v
  | _ => []

/-- The part of `*http.Request` the handler reads.  `Body` is the outcome of
`io.ReadAll(r.Body)`: the bytes read, or the text of the read error. -/
structure Request where
  Method : GoString
  Header : Header
  Body : Except GoString (List Byte)

/-- The state of an `http.ResponseWriter`: whether the status line has been written, the
status code, and the body bytes written so far. -/
structure ResponseWriter where
  wroteHeader : Bool
  status : Nat
  body : List Byte
  deriving DecidableEq, Repr

/-- Go `w.WriteHeader(code)`: sets the status once; a later call does not change it. -/
def ResponseWriter.WriteHeader (w : ResponseWriter) (code : Nat) : ResponseWriter :=
  if w.wroteHeader then w else ⟨true, code, w.body⟩

/-- Go `w.Write(data)`: writes status 200 first when no status was written yet. -/
def ResponseWriter.Write (w : ResponseWriter) (data : List Byte) : ResponseWriter :=
  let w1 := if w.wroteHeader then w else w.WriteHeader 200
  ⟨w1.wroteHeader, w1.status, w1.body ++ data⟩

/-- Go `http.Error(w, error, code)`: writes the status and then the message followed by a
newline (the content-type headers it sets are not modelled). -/
def Error (w : ResponseWriter) (error : GoString) (code : Nat) : ResponseWriter :=
  (w.WriteHeader code).Write (error ++ str "\n")

end http

/-! ## The webhook handler (listen.go, lines 56-140) -/

/-- The `color.Color` values created in `listenCmd.Run`. -/
inductive Color where
  | green
  | yellow
  | red
  | cyan
  deriving DecidableEq, Repr

/-- The effects of one handler invocation, in program order. -/
inductive Effect where
  /-- Call of `io.ReadAll(r.Body)`. -/
  | readAll
  /-- Console output: `fmt.Print*` (`none`) or `Printf` of a colour. -/
  | print (color : Option Color) (text : GoString)
  /-- Computation of an HMAC-SHA256 digest: `hmac.New`, `Write`, `Sum`. -/
  | hmacSum (key msg : List Byte)
  /-- Call of `http.Error(w, error, code)`. -/
  | httpError (error : GoString) (code : Nat)
  /-- Call of `w.WriteHeader(code)`. -/
  | writeHeader (code : Nat)
  /-- Call of `w.Write(data)`. -/
  | write (data : List Byte)
  deriving DecidableEq, Repr

/-- The four values read from the request headers. -/
structure Extracted where
  eventID : GoString
  eventType : GoString
  timestamp : GoString
  signature : GoString
  deriving DecidableEq, Repr

/-- The statements under "Extract headers" (lines 70-89): each value is read from the
`X-Sapliy-*` header and, when that reads as `""`, from the deprecated `X-Webhook-*` one. -/
def extractHeaders (h : http.Header) : Extracted :=
  let eventID := h.Get (str "X-Sapliy-Event-ID")
  let eventID := if eventID == str "" then h.Get (str "X-Webhook-ID") else eventID
  let eventType := h.Get (str "X-Sapliy-Event-Type")
  let eventType := if eventType == str "" then h.Get (str "X-Webhook-Event") else eventType
  let timestamp := h.Get (str "X-Sapliy-Timestamp")
  let timestamp := if timestamp == str "" then h.Get (str "X-Webhook-Timestamp") else timestamp
  let signature := h.Get (str "X-Sapliy-Signature")
  let signature := if signature == str "" then h.Get (str "X-Webhook-Signature") else signature
  ⟨eventID, eventType, timestamp, signature⟩

/-- The statements under "Display webhook" (lines 97-103). -/
def displayWebhook (x : Extracted) : List Effect :=
  [ .print none (str "\n"),
    .print (some .cyan) (str "📨 Incoming Webhook\n"),
    .print none (strings.Repeat (str "─") 60 ++ str "\n"),
    .print none (str "Event ID:   " ++ x.eventID ++ str "\n"),
    .print none (str "Event Type: " ++ x.eventType ++ str "\n"),
    .print none (str "Timestamp:  " ++ x.timestamp ++ str "\n") ]

/-- The statements under "Verify signature" (lines 105-120). -/
def verifySignature (secret : GoString) (body : List Byte) (signature : GoString) :
    List Effect :=
  if secret != str "" && signature != str "" then
    let expectedSig := hex.EncodeToString (hmac.SumSHA256 secret body)
    .hmacSum secret body ::
      (if signature == expectedSig then
        [.print (some .green) (str "Signature:  ✓ VALID\n")]
      else
        [ .print (some .red) (str "Signature:  ✗ INVALID\n"),
          .print (some .red) (str "  Expected: " ++ expectedSig ++ str "\n"),
          .print (some .red) (str "  Got:      " ++ signature ++ str "\n") ])
  else if signature != str "" then
    [.print (some .yellow) (str "Signature:  " ++ signature ++ str " (not verified)\n")]
  else
    []

/-- The payload block (lines 122-136).  `indent body` stands for `encoding/json`:
`json.Unmarshal(body, &payload)` into a `map[string]interface{}` followed by
`json.MarshalIndent(payload, "", "  ")`, and is `none` when `Unmarshal` fails. -/
def displayPayload (indent : List Byte → Option GoString) (body : List Byte) : List Effect :=
  [ .print none (str "\n"),
    .print none (str "Payload:" ++ str "\n"),
    .print none (strings.Repeat (str "─") 60 ++ str "\n"),
    (match indent body with
      | some prettyJSON => .print none (prettyJSON ++ str "\n")
      | none => .print none (body ++ str "\n")),
    .print none (strings.Repeat (str "─") 60 ++ str "\n"),
    .print none (str "\n") ]

/-- The function registered by `http.HandleFunc("/", ...)`, with the captured `secret` and
`eventPattern`; its result is the sequence of effects of serving `r`. -/
def listenHandler (indent : List Byte → Option GoString) (secret eventPattern : GoString)
    (r : http.Request) : List Effect :=
  if r.Method != str "POST" then
    [.httpError (str "Method not allowed") 405]
  else
    match r.Body with
    | .error err =>
      [ .readAll,
        .print (some .red) (str "❌ Error reading body: " ++ err ++ str "\n"),
        .httpError (str "Error reading body") 400 ]
    | .ok body =>
      let x := extractHeaders r.Header
      if eventPattern != str "*" && !matchPattern x.eventType eventPattern then
        [.readAll, .writeHeader 200]
      else
        [.readAll] ++ displayWebhook x ++ verifySignature secret body x.signature ++
          displayPayload indent body ++
          [.writeHeader 200, .write (str "\x7b\"status\":\"received\"\x7d")]

/-- The `eventPattern` that `listenCmd.Run` sets: the first argument, `"*"` without one. -/
def eventPatternOf (args : List GoString) : GoString :=
  match args with
  | a :: _ => a
  | [] => str "*"

/-! ## Observations on an effect sequence -/

/-- The console output: the printed pieces with their colour, in order. -/
def console : List Effect → List (Option Color × GoString)
  | [] => []
  | .print c t :: es => (c, t) :: console es
  | _ :: es => console es

/-- The digests computed: key and message of every HMAC computation, in order. -/
def digests : List Effect → List (List Byte × List Byte)
  | [] => []
  | .hmacSum k m :: es => (k, m) :: digests es
  | _ :: es => digests es

/-- The effect of one step on the response writer. -/
def applyEffect (w : http.ResponseWriter) : Effect → http.ResponseWriter
  | .httpError error code => http.Error w error code
  | .writeHeader code => w.WriteHeader code
  | .write data => w.Write data
  | _ => w

/-- The HTTP response sent to the client. -/
structure Response where
  status : Nat
  body : List Byte
  deriving DecidableEq, Repr

/-- The response produced by an effect sequence: the status and body left in the response
writer (status 200 when the handler returns without writing one). -/
def response (es : List Effect) : Response :=
  let w := es.foldl applyEffect ⟨false, 200, []⟩
  ⟨w.status, w.body⟩

/-! ## The signature lines -/

/-- The console line reporting a valid signature. -/
def validLine : Option Color × GoString := (some .green, str "Signature:  ✓ VALID\n")

/-- The console line reporting an invalid signature. -/
def invalidLine : Option Color × GoString := (some .red, str "Signature:  ✗ INVALID\n")

/-- The console line showing the expected digest. -/
def expectedLine (expectedSig : GoString) : Option Color × GoString :=
  (some .red, str "  Expected: " ++ expectedSig ++ str "\n")

/-- The console line showing the received signature. -/
def gotLine (signature : GoString) : Option Color × GoString :=
  (some .red, str "  Got:      " ++ signature ++ str "\n")

/-- The console line showing a signature that is not verified. -/
def unverifiedLine (signature : GoString) : Option Color × GoString :=
  (some .yellow, str "Signature:  " ++ signature ++ str " (not verified)\n")

/-- Two strings of equal length that differ at exactly one position. -/
def AlteredByOne (a b : GoString) : Prop :=
  a.length = b.length ∧ (List.zip a b).countP (fun p => p.1 != p.2) = 1

instance (a b : GoString) : Decidable (AlteredByOne a b) := by
  unfold AlteredByOne; exact inferInstance

/-! ## Sample inputs -/

/-- A stand-in for `encoding/json` that knows one document, the body of the end-to-end
scenarios; every other body used below is not JSON. -/
def sampleIndent (body : List Byte) : Option GoString :=
  if body = str "\x7b\"x\":1\x7d" then some (str "\x7b\n  \"x\": 1\n\x7d") else none

/-- A GET request. -/
def sampleGet : http.Request :=
  ⟨str "GET", [(str "X-Sapliy-Event-Type", [str "payment.succeeded"])], .ok (str "ping")⟩

/-- A POST request whose body cannot be read. -/
def sampleUnreadable : http.Request :=
  ⟨str "POST", [(str "X-Sapliy-Signature", [str "00ff"])], .error (str "unexpected EOF")⟩

/-- The delivery of scenario A: body `{"x":1}` signed with the secret `s3cr3t`. -/
def sampleSigned : http.Request :=
  ⟨str "POST",
   [ (str "X-Sapliy-Event-Type", [str "payment.succeeded"]),
     (str "X-Sapliy-Signature",
      [str "bfaa083bff11eb9b41f37ed32cd1ca7355ab7033bad1212c922e9ab8840bfc21"]) ],
   .ok (str "\x7b\"x\":1\x7d")⟩

/-- The delivery of scenario B: as `sampleSigned` with the first digit of the signature
changed. -/
def sampleTampered : http.Request :=
  ⟨str "POST",
   [ (str "X-Sapliy-Event-Type", [str "payment.succeeded"]),
     (str "X-Sapliy-Signature",
      [str "cfaa083bff11eb9b41f37ed32cd1ca7355ab7033bad1212c922e9ab8840bfc21"]) ],
   .ok (str "\x7b\"x\":1\x7d")⟩

/-- A delivery without any signature header. -/
def sampleUnsigned : http.Request :=
  ⟨str "POST", [(str "X-Sapliy-Event-Type", [str "payment.succeeded"])], .ok (str "ping")⟩

/-- Headers in which `X-Sapliy-Event-ID` is present with an empty value next to a legacy
`X-Webhook-ID`. -/
def sampleEmptyCanonical : http.Header :=
  [ (str "X-Sapliy-Event-Id", [str ""]), (str "X-Webhook-Id", [str "evt_legacy"]) ]

/-- Headers in which `X-Sapliy-Event-ID` and `X-Webhook-ID` are both present with a value. -/
def sampleBothPresent : http.Header :=
  [ (str "X-Webhook-Id", [str "evt_legacy"]), (str "X-Sapliy-Event-Id", [str "evt_canonical"]) ]

/-- The reading rule for one extracted `value`: it is the first value of the `canonical`
header when that value is non-empty, and it is `Header.Get` of the `legacy` header when the
canonical header is absent, has no value, or has an empty first value. -/
def FallsBack (h : http.Header) (canonical legacy value : GoString) : Prop :=
  (∀ v vs, h.lookup (http.CanonicalMIMEHeaderKey canonical) = some (v :: vs) → v ≠ str "" →
    value = v) ∧
  ((h.lookup (http.CanonicalMIMEHeaderKey canonical) = none ∨
    h.lookup (http.CanonicalMIMEHeaderKey canonical) = some [] ∨
    ∃ vs, h.lookup (http.CanonicalMIMEHeaderKey canonical) = some (str "" :: vs)) →
    value = h.Get legacy)

/-- A POST delivery of a `checkout.completed` event. -/
def sampleCheckout : http.Request :=
  ⟨str "POST", [(str "X-Sapliy-Event-Type", [str "checkout.completed"])], .ok (str "ping")⟩

/-! ## The event poller (debug.go, lines 61-119) -/

/-- A value of type `interface{}` as `encoding/json` stores it; a number keeps its literal. -/
inductive JSONValue where
  | null
  | bool (b : Bool)
  | number (literal : GoString)
  | string (s : GoString)
  | array (items : List JSONValue)
  | object (fields : List (GoString × JSONValue))

/-- An element of `result.Data`, a `map[string]interface{}`, as an association list read by
first match; the nil map is `[]`. -/
abbrev Event := List (GoString × JSONValue)

/-- Go `v, _ := event[key].(string)`: the string stored under `key`, and `""` when the key
is missing or holds a value that is not a string. -/
def stringField (event : Event) (key : GoString) : GoString :=
  match event.lookup key with
  | some (.string s) => s
  | _ => []

/-- Go `Header.Set`: replaces the values stored under the canonical form of `key` by the
single `value`. -/
def http.Header.Set (h : http.Header) (key value : GoString) : http.Header :=
  (http.CanonicalMIMEHeaderKey key, [value]) ::
    h.filter (fun kv => kv.1 != http.CanonicalMIMEHeaderKey key)

/-- What the world gives back for one call of `client.Do(req)` followed by
`json.NewDecoder(resp.Body).Decode(&result)`. -/
inductive FetchOutcome where
  /-- The call `client.Do(req)` returns an error (connection refused, timeout, ...). -/
  | transportError
  /-- A response arrives; `data` is what `Decode` leaves in `result.Data` and `decodeErr`
  tells whether `Decode` returns an error, which the code discards.  A body that is not
  well-formed JSON gives an error and leaves `data` empty; a well-formed body in which some
  value has the wrong type gives an error after the other values are stored. -/
  | decoded (data : List Event) (decodeErr : Bool)

/-- The effects of the poll loop, in program order. -/
inductive PollEffect where
  /-- Call of `client.Do(req)` with the method, URL and headers of `req`. -/
  | request (method url : GoString) (header : http.Header)
  /-- Call of `fmt.Printf(format, args...)` with string arguments. -/
  | printf (format : GoString) (args : List GoString)
  /-- Call of `fmt.Println(text)`. -/
  | println (text : GoString)
  deriving DecidableEq, Repr

/-- The URL built in `pollEvents` (lines 96-102). -/
def pollURL (baseURL zone afterID : GoString) : GoString :=
  let url := baseURL ++ str "/v1/events?limit=10"
  let url := if zone != str "" then url ++ (str "&zone=" ++ zone) else url
  let url := if afterID != str "" then url ++ (str "&after=" ++ afterID) else url
  url

/-- The function `pollEvents` (lines 95-119).  `newRequestOK url` tells whether
`http.NewRequest("GET", url, nil)` returns a request; when it returns `nil` and an error, the
discarded error leaves `req` nil and `req.Header.Set` panics: the result is `none`.
Otherwise the result is the call of `client.Do` together with the events returned: none
after a transport error, `result.Data` after a response. -/
def pollEvents (newRequestOK : GoString → Bool) (outcome : FetchOutcome)
    (baseURL apiKey zone afterID : GoString) : Option (PollEffect × List Event) :=
  let url := pollURL baseURL zone afterID
  if newRequestOK url then
    let header : http.Header := []
    let header := header.Set (str "Authorization") (str "Bearer " ++ apiKey)
    let header := header.Set (str "Content-Type") (str "application/json")
    match outcome with
    | .transportError => some (.request (str "GET") url header, [])
    | .decoded data _ => some (.request (str "GET") url header, data)
  else
    none

/-- The values the poll loop reads from the configuration and the flags. -/
structure PollConfig where
  apiURL : GoString
  apiKey : GoString
  zone : GoString
  filterType : GoString
  verbose : Bool

/-- The library calls of the poll loop that depend on the outside: `http.NewRequest`
accepting a URL, the text of the `n`-th call of `time.Now().Format("15:04:05")`, and
`json.MarshalIndent(event, "", "  ")`. -/
structure PollEnv where
  newRequestOK : GoString → Bool
  now : Nat → GoString
  marshalIndent : Event → GoString

/-- Where the poll loop stands: waiting in `select`, returned after an interrupt, or
stopped by a panic. -/
inductive PollStatus where
  | polling
  | stopped
  | crashed
  deriving DecidableEq, Repr

/-- The state of the poll loop: the cursor `lastEventID`, the number of calls of
`time.Now()` made, the effects so far and the status. -/
structure PollState where
  lastEventID : GoString
  clock : Nat
  trace : List PollEffect
  status : PollStatus
  deriving DecidableEq, Repr

/-- The body of `for _, event := range events` (lines 70-88). -/
def handleEvent (env : PollEnv) (cfg : PollConfig) (st : PollState) (event : Event) :
    PollState :=
  let eventType := stringField event (str "type")
  let eventID := stringField event (str "id")
  if cfg.filterType != str "" && !strings.Contains eventType cfg.filterType then
    st
  else
    let timestamp := env.now st.clock
    if cfg.verbose then
      ⟨eventID, st.clock + 1,
        st.trace ++ [.printf (str "[%s] %s\n%s\n\n")
          [timestamp, eventType, env.marshalIndent event]],
        st.status⟩
    else
      ⟨eventID, st.clock + 1,
        st.trace ++ [.printf (str "[%s] %-30s  %s\n") [timestamp, eventType, eventID]],
        st.status⟩

/-- The branch `case <-ticker.C` (lines 68-89): one call of `pollEvents` with the cursor,
then the loop over the events returned. -/
def pollCycle (env : PollEnv) (cfg : PollConfig) (st : PollState) (outcome : FetchOutcome) :
    PollState :=
  match pollEvents env.newRequestOK outcome cfg.apiURL cfg.apiKey cfg.zone st.lastEventID with
  | none => ⟨st.lastEventID, st.clock, st.trace, .crashed⟩
  | some (req, events) =>
    events.foldl (handleEvent env cfg) ⟨st.lastEventID, st.clock, st.trace ++ [req], st.status⟩

/-- What `select` receives: the interrupt signal, or a tick of the ticker together with
what the fetch of that cycle gets back. -/
inductive Signal where
  | interrupt
  | tick (outcome : FetchOutcome)

/-- One iteration of `for { select ... }` (lines 63-90); a loop that has returned or
panicked takes no further step. -/
def pollStep (env : PollEnv) (cfg : PollConfig) (st : PollState) (s : Signal) : PollState :=
  match st.status with
  | .polling =>
    match s with
    | .interrupt =>
      ⟨st.lastEventID, st.clock, st.trace ++ [.println (str "\n👋 Disconnecting...")], .stopped⟩
    | .tick outcome => pollCycle env cfg st outcome
  | _ => st

/-- The state at `var lastEventID string` (line 61). -/
def initialPollState : PollState := ⟨str "", 0, [], .polling⟩

/-- The poll loop run on a sequence of signals. -/
def pollLoop (env : PollEnv) (cfg : PollConfig) (signals : List Signal) : PollState :=
  signals.foldl (pollStep env cfg) initialPollState

/-! ## Observations on the poll loop -/

/-- The events `pollEvents` returns for an outcome. -/
def FetchOutcome.events : FetchOutcome → List Event
  | .transportError => []
  | .decoded data _ => data

/-- The test of lines 75-77, negated: the event is not skipped by `continue`. -/
def passesFilter (cfg : PollConfig) (event : Event) : Bool :=
  !(cfg.filterType != str "" && !strings.Contains (stringField event (str "type")) cfg.filterType)

/-- The cursor after a list of events that passed the filter: the `id` string of the last
one, and the previous cursor when the list is empty. -/
def cursorAfter (cursor : GoString) (passed : List Event) : GoString :=
  match passed.getLast? with
  | none => cursor
  | some event => stringField event (str "id")

/-- The line printed for an event when the clock reads `timestamp`. -/
def renderLine (env : PollEnv) (cfg : PollConfig) (timestamp : GoString) (event : Event) :
    PollEffect :=
  if cfg.verbose then
    .printf (str "[%s] %s\n%s\n\n")
      [timestamp, stringField event (str "type"), env.marshalIndent event]
  else
    .printf (str "[%s] %-30s  %s\n")
      [timestamp, stringField event (str "type"), stringField event (str "id")]

/-- The URLs of the requests in a trace, in order. -/
def requestURLs : List PollEffect → List GoString
  | [] => []
  | .request _ url _ :: es => url :: requestURLs es
  | _ :: es => requestURLs es

/-- The `Printf` calls in a trace, in order. -/
def printed : List PollEffect → List PollEffect
  | [] => []
  | .printf format args :: es => .printf format args :: printed es
  | _ :: es => printed es

/-- The lines printed for a list of events that passed the filter, the first when the
clock has been read `clock` times. -/
def renderAll (env : PollEnv) (cfg : PollConfig) : Nat → List Event → List PollEffect
  | _, [] => []
  | clock, event :: events =>
    renderLine env cfg (env.now clock) event :: renderAll env cfg (clock + 1) events

/-- The events returned over a sequence of fetches, in order. -/
def allEvents : List FetchOutcome → List Event
  | [] => []
  | o :: os => o.events ++ allEvents os

/-- The request `pollEvents` hands to `client.Do`. -/
def pollRequest (cfg : PollConfig) (afterID : GoString) : PollEffect :=
  .request (str "GET") (pollURL cfg.apiURL cfg.zone afterID)
    [ (str "Content-Type", [str "application/json"]),
      (str "Authorization", [str "Bearer " ++ cfg.apiKey]) ]

/-! ## Sample inputs for the poll loop -/

/-- An event with the given `id` and type `payment.succeeded`. -/
def samplePayment (id : GoString) : Event :=
  [(str "id", .string id), (str "type", .string (str "payment.succeeded"))]

/-- An event of type `payment.succeeded` whose `id` is the number `42`. -/
def sampleNumericID : Event :=
  [(str "id", .number (str "42")), (str "type", .string (str "payment.succeeded"))]

/-- An event of type `checkout.completed`. -/
def sampleOther : Event :=
  [(str "id", .string (str "e9")), (str "type", .string (str "checkout.completed"))]

/-- A world in which `http.NewRequest` accepts a URL unless it holds a control byte, the
clock reads `15:04:05` and `json.MarshalIndent` is not looked at. -/
def sampleEnv : PollEnv :=
  ⟨fun url => url.all (fun b => decide (32 ≤ b.val ∧ b.val ≠ 127)), fun _ => str "15:04:05",
   fun _ => str ""⟩

/-- A compact-mode configuration with the given filter. -/
def sampleConfig (filterType : GoString) : PollConfig :=
  ⟨str "https://api.sapliy.io", str "sk_test", str "", filterType, false⟩

/-- The headers `pollEvents` sets with the key of `sampleConfig`. -/
def sampleHeader : http.Header :=
  [ (str "Content-Type", [str "application/json"]),
    (str "Authorization", [str "Bearer sk_test"]) ]

/-- The response of the first cycle of scenario D: `[e1]`. -/
def scenarioD1 : FetchOutcome := .decoded [samplePayment (str "e1")] false

/-- The response of the second cycle of scenario D: `[e1, e2]`. -/
def scenarioD2 : FetchOutcome :=
  .decoded [samplePayment (str "e1"), samplePayment (str "e2")] false

/-- The two cycles of scenario D. -/
def scenarioD : List Signal := [.tick scenarioD1, .tick scenarioD2]

/-- A response with the event `e1` followed by an event whose `id` is a number. -/
def sampleMixedIDs : FetchOutcome :=
  .decoded [samplePayment (str "e1"), sampleNumericID] false

/-- A response with `e1`, then an event whose `id` is a number, then an event of another
type. -/
def sampleMixedTypes : FetchOutcome :=
  .decoded [samplePayment (str "e1"), sampleNumericID, sampleOther] false

/-- What `Decode` leaves for the body `{"data":[{"id":"e1","type":"payment.succeeded"},7]}`:
the event, then a nil map for the number, together with an `UnmarshalTypeError`. -/
def samplePartialDecode : FetchOutcome := .decoded [samplePayment (str "e1"), []] true

/-- A polling state whose cursor is `e0`. -/
def sampleCursorState : PollState := ⟨str "e0", 3, [], .polling⟩

/-- The compact line printed for an event of type `payment.succeeded` with the given id. -/
def samplePrinted (id : GoString) : PollEffect :=
  .printf (str "[%s] %-30s  %s\n") [str "15:04:05", str "payment.succeeded", id]

/-! ## Lemmas on the `strings` functions -/

theorem HasPrefix_iff (s pfx : GoString) :
    strings.HasPrefix s pfx = true ↔ ∃ rest, s = pfx ++ rest := by
  unfold strings.HasPrefix
  constructor
  · intro h
    simp only [Bool.and_eq_true, decide_eq_true_eq, beq_iff_eq] at h
    refine ⟨s.drop pfx.length, ?_⟩
    conv_lhs => rw [← List.take_append_drop pfx.length s]
    rw [h.2]
  · rintro ⟨rest, rfl⟩
    simp

theorem HasSuffix_iff (s suffix : GoString) :
    strings.HasSuffix s suffix = true ↔ ∃ front, s = front ++ suffix := by
  unfold strings.HasSuffix
  constructor
  · intro h
    simp only [Bool.and_eq_true, decide_eq_true_eq, beq_iff_eq] at h
    refine ⟨s.take (s.length - suffix.length), ?_⟩
    conv_lhs => rw [← List.take_append_drop (s.length - suffix.length) s]
    rw [h.2]
  · rintro ⟨front, rfl⟩
    simp

theorem TrimSuffix_append (front suffix : GoString) :
    strings.TrimSuffix (front ++ suffix) suffix = front := by
  have h : strings.HasSuffix (front ++ suffix) suffix = true :=
    (HasSuffix_iff _ _).2 ⟨front, rfl⟩
  simp [strings.TrimSuffix, h]

theorem str_dotstar_length : (str ".*").length = 2 := by decide

theorem str_star_length : (str "*").length = 1 := by decide

theorem append_dotstar_ne_star (pre : GoString) : pre ++ str ".*" ≠ str "*" := by
  intro h
  have := congrArg List.length h
  rw [List.length_append, str_dotstar_length, str_star_length] at this
  omega

/-! ## The matcher -/

/-- C1. A pattern ending in `".*"` matches exactly the event types that start with the
pattern's prefix followed by a dot: for every prefix `pre` and event type `t`,
`matchPattern t (pre ++ ".*")` holds iff `t = pre ++ "." ++ rest` for some `rest`.  In
particular `payment.*` matches `payment.succeeded` but neither `payment` nor `payments.x`. -/
theorem matchPattern_dot_star :
    (∀ t pre : GoString,
      matchPattern t (pre ++ str ".*") = true ↔ ∃ rest, t = pre ++ str "." ++ rest) ∧
    matchPattern (str "payment.succeeded") (str "payment.*") = true ∧
    matchPattern (str "payment") (str "payment.*") = false ∧
    matchPattern (str "payments.x") (str "payment.*") = false := by
  refine ⟨?_, by decide, by decide, by decide⟩
  intro t pre
  have hs : strings.HasSuffix (pre ++ str ".*") (str ".*") = true :=
    (HasSuffix_iff _ _).2 ⟨pre, rfl⟩
  have hne : (pre ++ str ".*" == str "*") = false := by
    simpa using append_dotstar_ne_star pre
  unfold matchPattern
  rw [hne]
  simp only [hs, if_true, TrimSuffix_append, Bool.false_eq_true, if_false]
  exact HasPrefix_iff t (pre ++ str ".")

/-- C2. For a literal pattern `p` (not `"*"`, not ending in `".*"`), `matchPattern t p`
holds iff `t` and `p` are the same byte sequence. -/
theorem matchPattern_literal (t p : GoString) (hstar : p ≠ str "*")
    (hsuf : strings.HasSuffix p (str ".*") = false) :
    matchPattern t p = true ↔ t = p := by
  have hne : (p == str "*") = false := by simpa using hstar
  unfold matchPattern
  rw [hne]
  simp [hsuf]

/-- C2, at patterns with a `*` that is neither the whole pattern nor a trailing `".*"`: the
pattern `pay*` does not match `payment.succeeded`, it matches only itself, and a pattern that
differs from the event type in letter case does not match. -/
theorem matchPattern_literal_witness :
    (str "pay*" ≠ str "*" ∧ strings.HasSuffix (str "pay*") (str ".*") = false) ∧
    (matchPattern (str "payment.succeeded") (str "pay*") = true ↔
      str "payment.succeeded" = str "pay*") ∧
    matchPattern (str "payment.succeeded") (str "pay*") = false ∧
    matchPattern (str "pay*") (str "pay*") = true ∧
    matchPattern (str "a.b.c") (str "a.*.c") = false ∧
    matchPattern (str "Payment") (str "payment") = false :=
  ⟨⟨by decide, by decide⟩,
   matchPattern_literal (str "payment.succeeded") (str "pay*") (by decide) (by decide),
   by decide, by decide, by decide, by decide⟩

/-- C3. The pattern `"*"` matches every event type, the empty one included. -/
theorem matchPattern_star :
    (∀ t : GoString, matchPattern t (str "*") = true) ∧ matchPattern (str "") (str "*") = true := by
  refine ⟨?_, by decide⟩
  intro t
  simp [matchPattern]

/-! ## Lemmas on observations -/

theorem str_empty : str "" = [] := rfl

theorem console_append (a b : List Effect) : console (a ++ b) = console a ++ console b := by
  induction a with
  | nil => rfl
  | cons e es ih => cases e <;> simp [console, ih]

theorem digests_append (a b : List Effect) : digests (a ++ b) = digests a ++ digests b := by
  induction a with
  | nil => rfl
  | cons e es ih => cases e <;> simp [digests, ih]

theorem digests_displayWebhook (x : Extracted) : digests (displayWebhook x) = [] := rfl

theorem digests_displayPayload (indent : List Byte → Option GoString) (body : List Byte) :
    digests (displayPayload indent body) = [] := by
  unfold displayPayload
  cases indent body <;> rfl

theorem applyEffect_displayWebhook (x : Extracted) (w : http.ResponseWriter) :
    (displayWebhook x).foldl applyEffect w = w := rfl

theorem applyEffect_verifySignature (secret : GoString) (body : List Byte)
    (signature : GoString) (w : http.ResponseWriter) :
    (verifySignature secret body signature).foldl applyEffect w = w := by
  unfold verifySignature
  split
  · dsimp only
    split <;> rfl
  · split <;> rfl

theorem applyEffect_displayPayload (indent : List Byte → Option GoString) (body : List Byte)
    (w : http.ResponseWriter) : (displayPayload indent body).foldl applyEffect w = w := by
  unfold displayPayload
  cases indent body <;> rfl

/-- A request is dropped by the filter of line 92 exactly when `matchPattern` rejects its
event type: the test `eventPattern != "*"` changes nothing, `"*"` being accepted by
`matchPattern`. -/
theorem filter_drops_iff (t pattern : GoString) :
    (pattern != str "*" && !matchPattern t pattern) = true ↔ matchPattern t pattern = false := by
  by_cases hp : pattern = str "*"
  · subst hp
    simp [matchPattern]
  · simp [hp]

/-- The effects of serving a readable POST request that passes the filter. -/
theorem listenHandler_accepted (indent : List Byte → Option GoString)
    (secret eventPattern : GoString) (r : http.Request) (body : List Byte)
    (hm : r.Method = str "POST") (hb : r.Body = .ok body)
    (hf : matchPattern (extractHeaders r.Header).eventType eventPattern = true) :
    listenHandler indent secret eventPattern r =
      [.readAll] ++ displayWebhook (extractHeaders r.Header) ++
        verifySignature secret body (extractHeaders r.Header).signature ++
        displayPayload indent body ++
        [.writeHeader 200, .write (str "\x7b\"status\":\"received\"\x7d")] := by
  have hd : (eventPattern != str "*" &&
      !matchPattern (extractHeaders r.Header).eventType eventPattern) = false := by
    rw [hf]; simp
  unfold listenHandler
  simp only [hm, hb, bne_self_eq_false, Bool.false_eq_true, if_false]
  rw [hd]
  simp

/-- The effects of serving a readable POST request that the filter drops. -/
theorem listenHandler_dropped (indent : List Byte → Option GoString)
    (secret eventPattern : GoString) (r : http.Request) (body : List Byte)
    (hm : r.Method = str "POST") (hb : r.Body = .ok body)
    (hf : matchPattern (extractHeaders r.Header).eventType eventPattern = false) :
    listenHandler indent secret eventPattern r = [.readAll, .writeHeader 200] := by
  have hd := (filter_drops_iff (extractHeaders r.Header).eventType eventPattern).2 hf
  unfold listenHandler
  simp only [hm, hb, bne_self_eq_false, Bool.false_eq_true, if_false]
  rw [hd]
  simp

/-- The response to an accepted delivery. -/
theorem response_accepted (indent : List Byte → Option GoString)
    (secret eventPattern : GoString) (r : http.Request) (body : List Byte)
    (hm : r.Method = str "POST") (hb : r.Body = .ok body)
    (hf : matchPattern (extractHeaders r.Header).eventType eventPattern = true) :
    response (listenHandler indent secret eventPattern r) =
      ⟨200, str "\x7b\"status\":\"received\"\x7d"⟩ := by
  rw [listenHandler_accepted indent secret eventPattern r body hm hb hf]
  unfold response
  simp only [List.foldl_append, applyEffect_displayWebhook, applyEffect_verifySignature,
    applyEffect_displayPayload]
  rfl

/-! ## Lemmas on the signature step -/

theorem countP_zip_self (a : GoString) : (List.zip a a).countP (fun p => p.1 != p.2) = 0 := by
  induction a with
  | nil => rfl
  | cons x xs ih => simp [List.countP_cons, ih]

theorem AlteredByOne.ne {a b : GoString} (h : AlteredByOne a b) : a ≠ b := by
  rintro rfl
  have h2 := h.2
  rw [countP_zip_self] at h2
  exact absurd h2 (by decide)

theorem Sum256_length (data : List Byte) : (sha256.Sum256 data).length = 32 := by
  simp [sha256.Sum256, sha256.beBytes]

theorem EncodeToString_length (src : List Byte) :
    (hex.EncodeToString src).length = 2 * src.length := by
  induction src with
  | nil => rfl
  | cons v rest ih => simp [hex.EncodeToString, ih]; omega

theorem expectedSig_length (key msg : List Byte) :
    (hex.EncodeToString (hmac.SumSHA256 key msg)).length = 64 := by
  rw [EncodeToString_length, hmac.SumSHA256, Sum256_length]

theorem mem_console_displayWebhook (x : Extracted) (c : Option Color) (t : GoString)
    (h : (c, t) ∈ console (displayWebhook x)) : c = none ∨ c = some .cyan := by
  simp only [displayWebhook, console, List.mem_cons, Prod.mk.injEq, List.mem_nil_iff,
    or_false] at h
  rcases h with h | h | h | h | h | h
  all_goals first
    | exact Or.inl h.1
    | exact Or.inr h.1

theorem mem_console_displayPayload (indent : List Byte → Option GoString) (body : List Byte)
    (c : Option Color) (t : GoString) (h : (c, t) ∈ console (displayPayload indent body)) :
    c = none := by
  unfold displayPayload at h
  cases hi : indent body <;> rw [hi] at h <;>
    simp only [console, List.mem_cons, Prod.mk.injEq, List.mem_nil_iff, or_false] at h <;>
    rcases h with h | h | h | h | h | h <;> exact h.1

/-- The console output of an accepted delivery: header block, signature lines, payload
block. -/
theorem console_accepted (indent : List Byte → Option GoString)
    (secret eventPattern : GoString) (r : http.Request) (body : List Byte)
    (hm : r.Method = str "POST") (hb : r.Body = .ok body)
    (hf : matchPattern (extractHeaders r.Header).eventType eventPattern = true) :
    console (listenHandler indent secret eventPattern r) =
      console (displayWebhook (extractHeaders r.Header)) ++
        console (verifySignature secret body (extractHeaders r.Header).signature) ++
        console (displayPayload indent body) := by
  rw [listenHandler_accepted indent secret eventPattern r body hm hb hf]
  simp only [console_append]
  simp [console]

/-- A coloured line other than a cyan one is printed by an accepted delivery only in the
signature step. -/
theorem mem_console_accepted_iff (indent : List Byte → Option GoString)
    (secret eventPattern : GoString) (r : http.Request) (body : List Byte)
    (hm : r.Method = str "POST") (hb : r.Body = .ok body)
    (hf : matchPattern (extractHeaders r.Header).eventType eventPattern = true)
    (c : Color) (t : GoString) (hc : c ≠ .cyan) :
    (some c, t) ∈ console (listenHandler indent secret eventPattern r) ↔
      (some c, t) ∈ console (verifySignature secret body (extractHeaders r.Header).signature) := by
  rw [console_accepted indent secret eventPattern r body hm hb hf]
  simp only [List.mem_append]
  constructor
  · rintro ((h | h) | h)
    · rcases mem_console_displayWebhook _ _ _ h with h1 | h1
      · exact absurd h1 (by simp)
      · exact absurd (Option.some.inj h1) hc
    · exact h
    · exact absurd (mem_console_displayPayload _ _ _ _ h) (by simp)
  · intro h
    exact Or.inl (Or.inr h)

/-- The signature step when a secret is configured and a signature is present. -/
theorem verifySignature_configured (secret : GoString) (body : List Byte)
    (signature : GoString) (hs : secret ≠ str "") (hg : signature ≠ str "") :
    verifySignature secret body signature =
      .hmacSum secret body ::
        (if signature = hex.EncodeToString (hmac.SumSHA256 secret body) then
          [.print (some .green) (str "Signature:  ✓ VALID\n")]
        else
          [ .print (some .red) (str "Signature:  ✗ INVALID\n"),
            .print (some .red)
              (str "  Expected: " ++ hex.EncodeToString (hmac.SumSHA256 secret body) ++ str "\n"),
            .print (some .red) (str "  Got:      " ++ signature ++ str "\n") ]) := by
  unfold verifySignature
  simp [hs, hg]

/-- The signature step when no secret is configured. -/
theorem verifySignature_not_configured (body : List Byte) (signature : GoString) :
    verifySignature (str "") body signature =
      if signature = str "" then []
      else [.print (some .yellow) (str "Signature:  " ++ signature ++ str " (not verified)\n")] := by
  unfold verifySignature
  by_cases hg : signature = str "" <;> simp [hg]

/-- The effects of serving a request whose method is not `POST`. -/
theorem listenHandler_not_post_aux (indent : List Byte → Option GoString)
    (secret eventPattern : GoString) (r : http.Request) (hm : r.Method ≠ str "POST") :
    listenHandler indent secret eventPattern r =
      [.httpError (str "Method not allowed") 405] := by
  unfold listenHandler
  simp [hm]

/-- The effects of serving a POST request whose body cannot be read. -/
theorem listenHandler_body_unreadable_aux (indent : List Byte → Option GoString)
    (secret eventPattern : GoString) (r : http.Request) (err : GoString)
    (hm : r.Method = str "POST") (hb : r.Body = .error err) :
    listenHandler indent secret eventPattern r =
      [ .readAll,
        .print (some .red) (str "❌ Error reading body: " ++ err ++ str "\n"),
        .httpError (str "Error reading body") 400 ] := by
  unfold listenHandler
  simp [hm, hb]

/-! ## The handler: method, body, filter, response -/

/-- C9. A request whose method is not `POST` is answered with status 405 by the single call
`http.Error(w, "Method not allowed", 405)`: the body is not read, nothing is printed and no
digest is computed. -/
theorem listenHandler_not_post (indent : List Byte → Option GoString)
    (secret eventPattern : GoString) (r : http.Request) (hm : r.Method ≠ str "POST") :
    listenHandler indent secret eventPattern r = [.httpError (str "Method not allowed") 405] ∧
    response (listenHandler indent secret eventPattern r) =
      ⟨405, str "Method not allowed" ++ str "\n"⟩ ∧
    Effect.readAll ∉ listenHandler indent secret eventPattern r ∧
    console (listenHandler indent secret eventPattern r) = [] ∧
    digests (listenHandler indent secret eventPattern r) = [] := by
  rw [listenHandler_not_post_aux indent secret eventPattern r hm]
  refine ⟨rfl, rfl, by simp, rfl, rfl⟩

/-- C9, at a GET request. -/
theorem listenHandler_not_post_witness :
    sampleGet.Method ≠ str "POST" ∧
    (response (listenHandler sampleIndent (str "s3cr3t") (str "*") sampleGet)).status = 405 ∧
    console (listenHandler sampleIndent (str "s3cr3t") (str "*") sampleGet) = [] :=
  have h := listenHandler_not_post sampleIndent (str "s3cr3t") (str "*") sampleGet (by decide)
  ⟨by decide, by rw [h.2.1], h.2.2.2.1⟩

/-- C10. When reading the body of a POST request fails, the handler prints the read error,
answers with status 400 by `http.Error(w, "Error reading body", 400)` and returns: no call of
`WriteHeader` or `Write` follows, no digest is computed, the only console output is the error
line, and the result does not depend on the headers, the filter pattern or the secret. -/
theorem listenHandler_body_unreadable (indent : List Byte → Option GoString)
    (secret eventPattern : GoString) (r : http.Request) (err : GoString)
    (hm : r.Method = str "POST") (hb : r.Body = .error err) :
    listenHandler indent secret eventPattern r =
      [ .readAll,
        .print (some .red) (str "❌ Error reading body: " ++ err ++ str "\n"),
        .httpError (str "Error reading body") 400 ] ∧
    response (listenHandler indent secret eventPattern r) =
      ⟨400, str "Error reading body" ++ str "\n"⟩ ∧
    console (listenHandler indent secret eventPattern r) =
      [(some .red, str "❌ Error reading body: " ++ err ++ str "\n")] ∧
    digests (listenHandler indent secret eventPattern r) = [] ∧
    (∀ (indent1 : List Byte → Option GoString) (secret1 eventPattern1 : GoString)
        (header1 : http.Header),
      listenHandler indent1 secret1 eventPattern1 ⟨r.Method, header1, r.Body⟩ =
        listenHandler indent secret eventPattern r) := by
  have h : ∀ (indent1 : List Byte → Option GoString) (secret1 eventPattern1 : GoString)
      (header1 : http.Header),
      listenHandler indent1 secret1 eventPattern1 ⟨r.Method, header1, r.Body⟩ =
        [ .readAll,
          .print (some .red) (str "❌ Error reading body: " ++ err ++ str "\n"),
          .httpError (str "Error reading body") 400 ] := by
    intro indent1 secret1 eventPattern1 header1
    exact listenHandler_body_unreadable_aux indent1 secret1 eventPattern1
      ⟨r.Method, header1, r.Body⟩ err hm hb
  have h0 := h indent secret eventPattern r.Header
  rw [h0]
  refine ⟨rfl, rfl, rfl, rfl, ?_⟩
  intro indent1 secret1 eventPattern1 header1
  exact h indent1 secret1 eventPattern1 header1

/-- C10, at a POST request whose body read ends in `unexpected EOF`. -/
theorem listenHandler_body_unreadable_witness :
    (sampleUnreadable.Method = str "POST" ∧
      sampleUnreadable.Body = .error (str "unexpected EOF")) ∧
    (response (listenHandler sampleIndent (str "s3cr3t") (str "*") sampleUnreadable)).status
      = 400 ∧
    digests (listenHandler sampleIndent (str "s3cr3t") (str "*") sampleUnreadable) = [] :=
  have h := listenHandler_body_unreadable sampleIndent (str "s3cr3t") (str "*")
    sampleUnreadable (str "unexpected EOF") rfl rfl
  ⟨⟨rfl, rfl⟩, by rw [h.2.1], h.2.2.2.1⟩

/-- C7. A readable POST request whose event type the filter pattern does not match is
answered with status 200 and an empty body; the handler only reads the body and calls
`w.WriteHeader(200)`: nothing is printed and no digest is computed. -/
theorem listenHandler_filtered (indent : List Byte → Option GoString)
    (secret eventPattern : GoString) (r : http.Request) (body : List Byte)
    (hm : r.Method = str "POST") (hb : r.Body = .ok body)
    (hf : matchPattern (extractHeaders r.Header).eventType eventPattern = false) :
    listenHandler indent secret eventPattern r = [.readAll, .writeHeader 200] ∧
    response (listenHandler indent secret eventPattern r) = ⟨200, []⟩ ∧
    console (listenHandler indent secret eventPattern r) = [] ∧
    digests (listenHandler indent secret eventPattern r) = [] := by
  rw [listenHandler_dropped indent secret eventPattern r body hm hb hf]
  exact ⟨rfl, rfl, rfl, rfl⟩

/-- C7, at pattern `payment.*` (given as the command's argument) and event type
`checkout.completed`. -/
theorem listenHandler_filtered_witness :
    (sampleCheckout.Method = str "POST" ∧ sampleCheckout.Body = .ok (str "ping") ∧
      eventPatternOf [str "payment.*"] = str "payment.*" ∧
      (extractHeaders sampleCheckout.Header).eventType = str "checkout.completed" ∧
      matchPattern (str "checkout.completed") (str "payment.*") = false) ∧
    response (listenHandler sampleIndent (str "s3cr3t") (eventPatternOf [str "payment.*"])
      sampleCheckout) = ⟨200, []⟩ ∧
    console (listenHandler sampleIndent (str "s3cr3t") (eventPatternOf [str "payment.*"])
      sampleCheckout) = [] ∧
    digests (listenHandler sampleIndent (str "s3cr3t") (eventPatternOf [str "payment.*"])
      sampleCheckout) = [] :=
  have h := listenHandler_filtered sampleIndent (str "s3cr3t")
    (eventPatternOf [str "payment.*"]) sampleCheckout (str "ping") rfl rfl (by decide)
  ⟨⟨rfl, rfl, rfl, by decide, by decide⟩, h.2⟩

/-! ## The handler: signature verification -/

theorem console_verifySignature_configured (secret : GoString) (body : List Byte)
    (signature : GoString) (hs : secret ≠ str "") (hg : signature ≠ str "") :
    console (verifySignature secret body signature) =
      if signature = hex.EncodeToString (hmac.SumSHA256 secret body) then [validLine]
      else [ invalidLine, expectedLine (hex.EncodeToString (hmac.SumSHA256 secret body)),
             gotLine signature ] := by
  rw [verifySignature_configured secret body signature hs hg]
  split <;> rfl

theorem digests_verifySignature_configured (secret : GoString) (body : List Byte)
    (signature : GoString) (hs : secret ≠ str "") (hg : signature ≠ str "") :
    digests (verifySignature secret body signature) = [(secret, body)] := by
  rw [verifySignature_configured secret body signature hs hg]
  split <;> rfl

/-- What an accepted delivery prints and computes when a secret is configured and a signature
is present. -/
theorem verified_report (indent : List Byte → Option GoString)
    (secret eventPattern : GoString) (r : http.Request) (body : List Byte)
    (hm : r.Method = str "POST") (hb : r.Body = .ok body)
    (hf : matchPattern (extractHeaders r.Header).eventType eventPattern = true)
    (hs : secret ≠ str "") (hg : (extractHeaders r.Header).signature ≠ str "") :
    (validLine ∈ console (listenHandler indent secret eventPattern r) ↔
      (extractHeaders r.Header).signature = hex.EncodeToString (hmac.SumSHA256 secret body)) ∧
    (invalidLine ∈ console (listenHandler indent secret eventPattern r) ↔
      (extractHeaders r.Header).signature ≠ hex.EncodeToString (hmac.SumSHA256 secret body)) ∧
    ((extractHeaders r.Header).signature ≠ hex.EncodeToString (hmac.SumSHA256 secret body) →
      expectedLine (hex.EncodeToString (hmac.SumSHA256 secret body)) ∈
        console (listenHandler indent secret eventPattern r) ∧
      gotLine (extractHeaders r.Header).signature ∈
        console (listenHandler indent secret eventPattern r)) ∧
    digests (listenHandler indent secret eventPattern r) = [(secret, body)] := by
  have key := mem_console_accepted_iff indent secret eventPattern r body hm hb hf
  have hv := console_verifySignature_configured secret body _ hs hg
  refine ⟨?_, ?_, ?_, ?_⟩
  · unfold validLine
    rw [key .green _ (by decide), hv]
    by_cases he : (extractHeaders r.Header).signature =
        hex.EncodeToString (hmac.SumSHA256 secret body)
    · simp [he, validLine]
    · simp [he, invalidLine, expectedLine, gotLine]
  · unfold invalidLine
    rw [key .red _ (by decide), hv]
    by_cases he : (extractHeaders r.Header).signature =
        hex.EncodeToString (hmac.SumSHA256 secret body)
    · simp [he, validLine]
    · simp [he, invalidLine]
  · intro he
    unfold expectedLine gotLine
    rw [key .red _ (by decide), key .red _ (by decide), hv]
    simp [he, expectedLine, gotLine]
  · rw [listenHandler_accepted indent secret eventPattern r body hm hb hf]
    simp only [digests_append, digests_displayWebhook, digests_displayPayload,
      digests_verifySignature_configured secret body _ hs hg]
    rfl

/-- C4. For an accepted delivery with a non-empty secret and a non-empty signature, the
console shows the VALID line iff the signature equals the lowercase hexadecimal encoding of
HMAC-SHA256 keyed with the secret over the raw body; it shows the INVALID line iff they
differ, and then also the expected digest and the received signature.  One digest is computed,
over the raw body.  A delivery that carries a valid signature altered at one position is
reported INVALID with both lines. -/
theorem listenHandler_verifies (indent : List Byte → Option GoString)
    (secret eventPattern : GoString) (r : http.Request) (body : List Byte)
    (hm : r.Method = str "POST") (hb : r.Body = .ok body)
    (hf : matchPattern (extractHeaders r.Header).eventType eventPattern = true)
    (hs : secret ≠ str "") (hg : (extractHeaders r.Header).signature ≠ str "") :
    (validLine ∈ console (listenHandler indent secret eventPattern r) ↔
      (extractHeaders r.Header).signature = hex.EncodeToString (hmac.SumSHA256 secret body)) ∧
    (invalidLine ∈ console (listenHandler indent secret eventPattern r) ↔
      (extractHeaders r.Header).signature ≠ hex.EncodeToString (hmac.SumSHA256 secret body)) ∧
    ((extractHeaders r.Header).signature ≠ hex.EncodeToString (hmac.SumSHA256 secret body) →
      expectedLine (hex.EncodeToString (hmac.SumSHA256 secret body)) ∈
        console (listenHandler indent secret eventPattern r) ∧
      gotLine (extractHeaders r.Header).signature ∈
        console (listenHandler indent secret eventPattern r)) ∧
    digests (listenHandler indent secret eventPattern r) = [(secret, body)] ∧
    (∀ r1 : http.Request, r1.Method = str "POST" → r1.Body = .ok body →
      matchPattern (extractHeaders r1.Header).eventType eventPattern = true →
      (extractHeaders r.Header).signature = hex.EncodeToString (hmac.SumSHA256 secret body) →
      AlteredByOne (extractHeaders r.Header).signature (extractHeaders r1.Header).signature →
      validLine ∉ console (listenHandler indent secret eventPattern r1) ∧
      invalidLine ∈ console (listenHandler indent secret eventPattern r1) ∧
      expectedLine (hex.EncodeToString (hmac.SumSHA256 secret body)) ∈
        console (listenHandler indent secret eventPattern r1) ∧
      gotLine (extractHeaders r1.Header).signature ∈
        console (listenHandler indent secret eventPattern r1)) := by
  obtain ⟨h1, h2, h3, h4⟩ := verified_report indent secret eventPattern r body hm hb hf hs hg
  refine ⟨h1, h2, h3, h4, ?_⟩
  intro r1 hm1 hb1 hf1 he halt
  have hne : (extractHeaders r1.Header).signature ≠
      hex.EncodeToString (hmac.SumSHA256 secret body) := by
    rw [← he]
    exact fun h => halt.ne h.symm
  have hg1 : (extractHeaders r1.Header).signature ≠ str "" := by
    intro h0
    have hl := halt.1
    rw [he, expectedSig_length, h0] at hl
    exact absurd hl (by decide)
  obtain ⟨k1, k2, k3, _⟩ :=
    verified_report indent secret eventPattern r1 body hm1 hb1 hf1 hs hg1
  exact ⟨fun h => hne (k1.1 h), k2.2 hne, (k3 hne).1, (k3 hne).2⟩

set_option maxRecDepth 100000 in
/-- The digest of scenario A, as any HMAC-SHA256 implementation gives it. -/
theorem expectedSig_scenario :
    hex.EncodeToString (hmac.SumSHA256 (str "s3cr3t") (str "\x7b\"x\":1\x7d")) =
      str "bfaa083bff11eb9b41f37ed32cd1ca7355ab7033bad1212c922e9ab8840bfc21" := by
  rfl

set_option maxRecDepth 100000 in
/-- Test case 2 of RFC 4231. -/
theorem hmac_rfc4231_case2 :
    hex.EncodeToString (hmac.SumSHA256 (str "Jefe") (str "what do ya want for nothing?")) =
      str "5bdcc146bf60754e6a042426089575c75a003f089d2739839dec58b964ec3843" := by
  rfl

set_option maxRecDepth 100000 in
/-- Test case 6 of RFC 4231: a key longer than the block size. -/
theorem hmac_rfc4231_case6 :
    hex.EncodeToString (hmac.SumSHA256 (List.replicate 131 (toByte 0xaa))
        (str "Test Using Larger Than Block-Size Key - Hash Key First")) =
      str "60e431591ee0b67f0d8a26aacbf5b77f8e0bc6213728c5140546040f0ee37f54" := by
  rfl

set_option maxRecDepth 100000 in
/-- C4, on scenarios A and B: with secret `s3cr3t` the correctly signed delivery is reported
VALID, and the delivery whose signature has its first digit changed is reported INVALID with
the expected digest and the received signature. -/
theorem listenHandler_verifies_witness :
    (sampleSigned.Method = str "POST" ∧ sampleSigned.Body = .ok (str "\x7b\"x\":1\x7d") ∧
      matchPattern (extractHeaders sampleSigned.Header).eventType (str "*") = true ∧
      str "s3cr3t" ≠ str "" ∧ (extractHeaders sampleSigned.Header).signature ≠ str "") ∧
    validLine ∈ console (listenHandler sampleIndent (str "s3cr3t") (str "*") sampleSigned) ∧
    invalidLine ∉ console (listenHandler sampleIndent (str "s3cr3t") (str "*") sampleSigned) ∧
    validLine ∉ console (listenHandler sampleIndent (str "s3cr3t") (str "*") sampleTampered) ∧
    invalidLine ∈ console (listenHandler sampleIndent (str "s3cr3t") (str "*") sampleTampered) ∧
    expectedLine (str "bfaa083bff11eb9b41f37ed32cd1ca7355ab7033bad1212c922e9ab8840bfc21") ∈
      console (listenHandler sampleIndent (str "s3cr3t") (str "*") sampleTampered) ∧
    gotLine (str "cfaa083bff11eb9b41f37ed32cd1ca7355ab7033bad1212c922e9ab8840bfc21") ∈
      console (listenHandler sampleIndent (str "s3cr3t") (str "*") sampleTampered) :=
  have h := listenHandler_verifies sampleIndent (str "s3cr3t") (str "*") sampleSigned
    (str "\x7b\"x\":1\x7d") rfl rfl (by decide) (by decide) (by decide)
  have hsig : (extractHeaders sampleSigned.Header).signature =
      hex.EncodeToString (hmac.SumSHA256 (str "s3cr3t") (str "\x7b\"x\":1\x7d")) :=
    (by decide : (extractHeaders sampleSigned.Header).signature =
      str "bfaa083bff11eb9b41f37ed32cd1ca7355ab7033bad1212c922e9ab8840bfc21").trans
      expectedSig_scenario.symm
  have hgot : (extractHeaders sampleTampered.Header).signature =
      str "cfaa083bff11eb9b41f37ed32cd1ca7355ab7033bad1212c922e9ab8840bfc21" := by decide
  have ht := h.2.2.2.2 sampleTampered rfl rfl (by decide) hsig (by decide)
  ⟨⟨rfl, rfl, by decide, by decide, by decide⟩, h.1.2 hsig,
   fun hi => h.2.1.1 hi hsig, ht.1, ht.2.1, expectedSig_scenario ▸ ht.2.2.1,
   hgot ▸ ht.2.2.2⟩

theorem error_line_ne_invalid (err : GoString) :
    (some Color.red, str "❌ Error reading body: " ++ err ++ str "\n") ≠ invalidLine := by
  intro h
  have h2 := congrArg (fun p : Option Color × GoString => p.2.head?) h
  have h3 : (some (toByte 0xE2) : Option Byte) = some (toByte 0x53) := h2
  exact absurd h3 (by decide)

/-- C5. With an empty secret the handler never prints the VALID or the INVALID line and never
computes a digest, whatever the request; and for an accepted delivery the console output is
the header block, then the line `Signature:  <signature> (not verified)` when the signature
is non-empty and no line at all when it is empty, then the payload block. -/
theorem listenHandler_no_secret (indent : List Byte → Option GoString)
    (eventPattern : GoString) (r : http.Request) :
    validLine ∉ console (listenHandler indent (str "") eventPattern r) ∧
    invalidLine ∉ console (listenHandler indent (str "") eventPattern r) ∧
    digests (listenHandler indent (str "") eventPattern r) = [] ∧
    (∀ body : List Byte, r.Method = str "POST" → r.Body = .ok body →
      matchPattern (extractHeaders r.Header).eventType eventPattern = true →
      console (listenHandler indent (str "") eventPattern r) =
        console (displayWebhook (extractHeaders r.Header)) ++
          (if (extractHeaders r.Header).signature = str "" then []
           else [unverifiedLine (extractHeaders r.Header).signature]) ++
          console (displayPayload indent body)) := by
  have hcon : ∀ signature : GoString, ∀ body : List Byte,
      console (verifySignature (str "") body signature) =
        if signature = str "" then [] else [unverifiedLine signature] := by
    intro signature body
    rw [verifySignature_not_configured]
    split <;> rfl
  have hdig : ∀ signature : GoString, ∀ body : List Byte,
      digests (verifySignature (str "") body signature) = [] := by
    intro signature body
    rw [verifySignature_not_configured]
    split <;> rfl
  have hacc : ∀ body : List Byte, r.Method = str "POST" → r.Body = .ok body →
      matchPattern (extractHeaders r.Header).eventType eventPattern = true →
      console (listenHandler indent (str "") eventPattern r) =
        console (displayWebhook (extractHeaders r.Header)) ++
          (if (extractHeaders r.Header).signature = str "" then []
           else [unverifiedLine (extractHeaders r.Header).signature]) ++
          console (displayPayload indent body) := by
    intro body hm hb hf
    rw [console_accepted indent (str "") eventPattern r body hm hb hf, hcon]
  by_cases hm : r.Method = str "POST"
  · cases hb : r.Body with
    | error err =>
      have h := listenHandler_body_unreadable_aux indent (str "") eventPattern r err hm hb
      rw [h]
      refine ⟨?_, ?_, rfl, ?_⟩
      · simp [console, validLine]
      · intro hi
        simp only [console, List.mem_singleton] at hi
        exact error_line_ne_invalid err hi.symm
      · intro body _ hb2
        exact absurd hb2 (by simp)
    | ok body =>
      cases hf : matchPattern (extractHeaders r.Header).eventType eventPattern with
      | false =>
        rw [listenHandler_dropped indent (str "") eventPattern r body hm hb hf]
        refine ⟨by simp [console], by simp [console], rfl, ?_⟩
        intro body2 _ _ hf2
        exact absurd hf2 (by simp)
      | true =>
        have key := mem_console_accepted_iff indent (str "") eventPattern r body hm hb hf
        refine ⟨?_, ?_, ?_, ?_⟩
        · unfold validLine
          rw [key .green _ (by decide), hcon]
          split <;> simp [unverifiedLine]
        · unfold invalidLine
          rw [key .red _ (by decide), hcon]
          split <;> simp [unverifiedLine]
        · rw [listenHandler_accepted indent (str "") eventPattern r body hm hb hf]
          simp only [digests_append, digests_displayWebhook, digests_displayPayload, hdig]
          rfl
        · intro body2 hm2 hb2 hf2
          cases hb2
          exact hacc body hm hb hf
  · have h := (listenHandler_not_post_aux indent (str "") eventPattern r hm)
    rw [h]
    refine ⟨by simp [console], by simp [console], rfl, ?_⟩
    intro body hm2
    exact absurd hm2 hm

/-- C5, on the signed delivery of scenario A served without a secret: neither VALID nor
INVALID is printed, no digest is computed, and the signature is shown as not verified. -/
theorem listenHandler_no_secret_witness :
    (sampleSigned.Method = str "POST" ∧ sampleSigned.Body = .ok (str "\x7b\"x\":1\x7d") ∧
      matchPattern (extractHeaders sampleSigned.Header).eventType (str "*") = true) ∧
    validLine ∉ console (listenHandler sampleIndent (str "") (str "*") sampleSigned) ∧
    invalidLine ∉ console (listenHandler sampleIndent (str "") (str "*") sampleSigned) ∧
    digests (listenHandler sampleIndent (str "") (str "*") sampleSigned) = [] ∧
    console (listenHandler sampleIndent (str "") (str "*") sampleSigned) =
      console (displayWebhook (extractHeaders sampleSigned.Header)) ++
        [unverifiedLine (str "bfaa083bff11eb9b41f37ed32cd1ca7355ab7033bad1212c922e9ab8840bfc21")] ++
        console (displayPayload sampleIndent (str "\x7b\"x\":1\x7d")) ∧
    console (listenHandler sampleIndent (str "") (str "*") sampleUnsigned) =
      console (displayWebhook (extractHeaders sampleUnsigned.Header)) ++
        console (displayPayload sampleIndent (str "ping")) :=
  have h := listenHandler_no_secret sampleIndent (str "*") sampleSigned
  have hu := listenHandler_no_secret sampleIndent (str "*") sampleUnsigned
  ⟨⟨rfl, rfl, by decide⟩, h.1, h.2.1, h.2.2.1,
   (h.2.2.2 (str "\x7b\"x\":1\x7d") rfl rfl (by decide)).trans (by rfl),
   (hu.2.2.2 (str "ping") rfl rfl (by decide)).trans (by rfl)⟩

/-! ## The handler: acknowledgment -/

/-- C6. A readable POST request that passes the filter is answered with status 200 and the
body `{"status":"received"}`, and every other accepted delivery, whatever its secret,
signature, headers and body, gets the same response. -/
theorem listenHandler_acknowledges (indent : List Byte → Option GoString)
    (secret eventPattern : GoString) (r : http.Request) (body : List Byte)
    (hm : r.Method = str "POST") (hb : r.Body = .ok body)
    (hf : matchPattern (extractHeaders r.Header).eventType eventPattern = true) :
    response (listenHandler indent secret eventPattern r) =
      ⟨200, str "\x7b\"status\":\"received\"\x7d"⟩ ∧
    (∀ (indent1 : List Byte → Option GoString) (secret1 eventPattern1 : GoString)
        (r1 : http.Request) (body1 : List Byte),
      r1.Method = str "POST" → r1.Body = .ok body1 →
      matchPattern (extractHeaders r1.Header).eventType eventPattern1 = true →
      response (listenHandler indent1 secret1 eventPattern1 r1) =
        response (listenHandler indent secret eventPattern r)) := by
  have h := response_accepted indent secret eventPattern r body hm hb hf
  refine ⟨h, ?_⟩
  intro indent1 secret1 eventPattern1 r1 body1 hm1 hb1 hf1
  rw [h]
  exact response_accepted indent1 secret1 eventPattern1 r1 body1 hm1 hb1 hf1

/-- C6, on scenarios A and B and on an unsigned delivery served without a secret: the three
deliveries (reported VALID, reported INVALID, not verified) get the same 200 response. -/
theorem listenHandler_acknowledges_witness :
    (sampleSigned.Method = str "POST" ∧ sampleSigned.Body = .ok (str "\x7b\"x\":1\x7d") ∧
      matchPattern (extractHeaders sampleSigned.Header).eventType (str "*") = true) ∧
    response (listenHandler sampleIndent (str "s3cr3t") (str "*") sampleSigned) =
      ⟨200, str "\x7b\"status\":\"received\"\x7d"⟩ ∧
    response (listenHandler sampleIndent (str "s3cr3t") (str "*") sampleTampered) =
      response (listenHandler sampleIndent (str "s3cr3t") (str "*") sampleSigned) ∧
    response (listenHandler sampleIndent (str "") (str "payment.*") sampleUnsigned) =
      response (listenHandler sampleIndent (str "s3cr3t") (str "*") sampleSigned) :=
  have h := listenHandler_acknowledges sampleIndent (str "s3cr3t") (str "*") sampleSigned
    (str "\x7b\"x\":1\x7d") rfl rfl (by decide)
  ⟨⟨rfl, rfl, by decide⟩, h.1,
   h.2 sampleIndent (str "s3cr3t") (str "*") sampleTampered (str "\x7b\"x\":1\x7d") rfl rfl
     (by decide),
   h.2 sampleIndent (str "") (str "payment.*") sampleUnsigned (str "ping") rfl rfl
     (by decide)⟩

/-! ## The handler: header extraction -/

theorem Header.Get_of_value (h : http.Header) (key v : GoString) (vs : List GoString)
    (hl : h.lookup (http.CanonicalMIMEHeaderKey key) = some (v :: vs)) : h.Get key = v := by
  simp [http.Header.Get, hl]

theorem Header.Get_of_empty (h : http.Header) (key : GoString)
    (hl : h.lookup (http.CanonicalMIMEHeaderKey key) = none ∨
      h.lookup (http.CanonicalMIMEHeaderKey key) = some [] ∨
      ∃ vs, h.lookup (http.CanonicalMIMEHeaderKey key) = some (str "" :: vs)) :
    h.Get key = str "" := by
  rcases hl with hl | hl | ⟨vs, hl⟩ <;> simp [http.Header.Get, hl, str_empty]

/-- The read of one value with fallback, as the handler writes it four times. -/
theorem fallsBack_of_read (h : http.Header) (canonical legacy : GoString) :
    FallsBack h canonical legacy
      (if h.Get canonical == str "" then h.Get legacy else h.Get canonical) := by
  refine ⟨?_, ?_⟩
  · intro v vs hl hv
    rw [Header.Get_of_value h canonical v vs hl]
    simp [hv]
  · intro hl
    rw [Header.Get_of_empty h canonical hl]
    simp

/-- C8 as amended. Each of event id, event type, timestamp and signature is the first value
of its `X-Sapliy-*` header when that value is non-empty; when the `X-Sapliy-*` header is
absent, has no value or has an empty first value, it is what `Header.Get` returns for the
`X-Webhook-*` header (its first value, `""` without one). -/
theorem extractHeaders_fallsBack (h : http.Header) :
    FallsBack h (str "X-Sapliy-Event-ID") (str "X-Webhook-ID") (extractHeaders h).eventID ∧
    FallsBack h (str "X-Sapliy-Event-Type") (str "X-Webhook-Event")
      (extractHeaders h).eventType ∧
    FallsBack h (str "X-Sapliy-Timestamp") (str "X-Webhook-Timestamp")
      (extractHeaders h).timestamp ∧
    FallsBack h (str "X-Sapliy-Signature") (str "X-Webhook-Signature")
      (extractHeaders h).signature :=
  ⟨fallsBack_of_read h _ _, fallsBack_of_read h _ _, fallsBack_of_read h _ _,
   fallsBack_of_read h _ _⟩

/-- C8 as amended, on headers with both names present: a non-empty `X-Sapliy-Event-ID` wins
over `X-Webhook-ID`, an empty one yields the value of `X-Webhook-ID`. -/
theorem extractHeaders_fallsBack_witness :
    (extractHeaders sampleBothPresent).eventID = str "evt_canonical" ∧
    (extractHeaders sampleEmptyCanonical).eventID =
      sampleEmptyCanonical.Get (str "X-Webhook-ID") :=
  ⟨(extractHeaders_fallsBack sampleBothPresent).1.1 (str "evt_canonical") [] (by decide)
     (by decide),
   (extractHeaders_fallsBack sampleEmptyCanonical).1.2 (Or.inr (Or.inr ⟨[], by decide⟩))⟩

/-- C8 as stated fails: in `sampleEmptyCanonical` the header `X-Sapliy-Event-ID` is present
(with the empty value) and `X-Webhook-ID` is present too, yet the extracted event id is the
legacy value `evt_legacy`, not the canonical header's value. -/
theorem extractHeaders_present_counterexample :
    (sampleEmptyCanonical.lookup (http.CanonicalMIMEHeaderKey (str "X-Sapliy-Event-ID"))
      = some [str ""]) ∧
    (sampleEmptyCanonical.lookup (http.CanonicalMIMEHeaderKey (str "X-Webhook-ID"))
      = some [str "evt_legacy"]) ∧
    http.Header.Get sampleEmptyCanonical (str "X-Sapliy-Event-ID") = str "" ∧
    (extractHeaders sampleEmptyCanonical).eventID = str "evt_legacy" ∧
    ¬ (∀ h : http.Header,
        (h.lookup (http.CanonicalMIMEHeaderKey (str "X-Sapliy-Event-ID"))).isSome = true →
        (extractHeaders h).eventID = h.Get (str "X-Sapliy-Event-ID")) := by
  refine ⟨by decide, by decide, by decide, by decide, ?_⟩
  intro hall
  exact absurd (hall sampleEmptyCanonical (by decide)) (by decide)

/-! ## Lemmas on `strings.Contains` -/

theorem Index_nil (substr : GoString) :
    strings.Index [] substr = if strings.HasPrefix [] substr then 0 else -1 := by
  rw [strings.Index]

theorem Index_cons (x : Byte) (t substr : GoString) :
    strings.Index (x :: t) substr =
      if strings.HasPrefix (x :: t) substr then 0
      else if strings.Index t substr < 0 then -1 else strings.Index t substr + 1 := by
  rw [strings.Index]

theorem Index_ge_neg_one (s substr : GoString) : -1 ≤ strings.Index s substr := by
  induction s with
  | nil => rw [Index_nil]; split <;> decide
  | cons x t ih =>
    rw [Index_cons]
    split
    · decide
    · split
      · decide
      · omega

/-- The substring test holds exactly when `substr` occurs somewhere in `s`. -/
theorem Contains_iff (s substr : GoString) :
    strings.Contains s substr = true ↔ ∃ pre post, s = pre ++ substr ++ post := by
  unfold strings.Contains
  rw [decide_eq_true_eq]
  induction s with
  | nil =>
    rw [Index_nil]
    constructor
    · intro h
      have hp : strings.HasPrefix [] substr = true := by
        by_contra hc
        rw [if_neg hc] at h
        exact absurd h (by decide)
      obtain ⟨rest, hr⟩ := (HasPrefix_iff _ _).1 hp
      exact ⟨[], rest, by simpa using hr⟩
    · rintro ⟨pre, post, h⟩
      have hs : substr = [] := by
        have h2 := congrArg List.length h
        simp only [List.length_nil, List.length_append] at h2
        exact List.eq_nil_of_length_eq_zero (by omega)
      subst hs
      have hp : strings.HasPrefix [] [] = true := by decide
      rw [if_pos hp]
  | cons x t ih =>
    rw [Index_cons]
    constructor
    · intro h
      by_cases hp : strings.HasPrefix (x :: t) substr = true
      · obtain ⟨rest, hr⟩ := (HasPrefix_iff _ _).1 hp
        exact ⟨[], rest, by simpa using hr⟩
      · rw [if_neg hp] at h
        have ht : 0 ≤ strings.Index t substr := by
          by_contra hc
          rw [if_pos (by omega)] at h
          exact absurd h (by decide)
        obtain ⟨pre, post, hr⟩ := ih.1 ht
        exact ⟨x :: pre, post, by rw [hr]; simp⟩
    · rintro ⟨pre, post, h⟩
      by_cases hp : strings.HasPrefix (x :: t) substr = true
      · rw [if_pos hp]
      · rw [if_neg hp]
        cases pre with
        | nil =>
          exact absurd ((HasPrefix_iff _ _).2 ⟨post, by simpa using h⟩) hp
        | cons y pre1 =>
          have ht : t = pre1 ++ substr ++ post := by
            simp only [List.cons_append, List.cons.injEq] at h
            exact h.2
          have h0 : 0 ≤ strings.Index t substr := ih.2 ⟨pre1, post, ht⟩
          rw [if_neg (by omega)]
          omega

/-! ## Lemmas on the poll loop -/

theorem passesFilter_iff (cfg : PollConfig) (event : Event) :
    passesFilter cfg event = true ↔
      cfg.filterType = str "" ∨
      ∃ pre post, stringField event (str "type") = pre ++ cfg.filterType ++ post := by
  rw [← Contains_iff]
  unfold passesFilter
  by_cases hf : cfg.filterType = str ""
  · simp [hf]
  · cases hc : strings.Contains (stringField event (str "type")) cfg.filterType <;> simp [hf, hc]

theorem handleEvent_skip (env : PollEnv) (cfg : PollConfig) (st : PollState) (event : Event)
    (h : passesFilter cfg event = false) : handleEvent env cfg st event = st := by
  unfold passesFilter at h
  unfold handleEvent
  simp only [Bool.not_eq_false'] at h
  simp only [h, if_true]

theorem handleEvent_pass (env : PollEnv) (cfg : PollConfig) (st : PollState) (event : Event)
    (h : passesFilter cfg event = true) :
    handleEvent env cfg st event =
      ⟨stringField event (str "id"), st.clock + 1,
        st.trace ++ [renderLine env cfg (env.now st.clock) event], st.status⟩ := by
  unfold passesFilter at h
  unfold handleEvent renderLine
  simp only [Bool.not_eq_true'] at h
  simp only [h, Bool.false_eq_true, if_false]
  split <;> rfl

theorem cursorAfter_nil (cursor : GoString) : cursorAfter cursor [] = cursor := rfl

theorem cursorAfter_cons (cursor : GoString) (event : Event) (rest : List Event) :
    cursorAfter cursor (event :: rest) = cursorAfter (stringField event (str "id")) rest := by
  cases rest with
  | nil => rfl
  | cons e es =>
    unfold cursorAfter
    rw [List.getLast?_cons_cons]
    cases h : (e :: es).getLast? with
    | none => simp at h
    | some x => rfl

theorem cursorAfter_append (cursor : GoString) (a b : List Event) :
    cursorAfter cursor (a ++ b) = cursorAfter (cursorAfter cursor a) b := by
  induction a generalizing cursor with
  | nil => rfl
  | cons e es ih => rw [List.cons_append, cursorAfter_cons, cursorAfter_cons, ih]

/-- The loop over the events of one response: the cursor ends on the last event that passed
the filter, and one line is printed per event that passed, in order. -/
theorem foldl_handleEvent (env : PollEnv) (cfg : PollConfig) (events : List Event)
    (st : PollState) :
    events.foldl (handleEvent env cfg) st =
      ⟨cursorAfter st.lastEventID (events.filter (passesFilter cfg)),
        st.clock + (events.filter (passesFilter cfg)).length,
        st.trace ++ renderAll env cfg st.clock (events.filter (passesFilter cfg)),
        st.status⟩ := by
  induction events generalizing st with
  | nil => simp [cursorAfter_nil, renderAll]
  | cons e es ih =>
    rw [List.foldl_cons, ih]
    cases hp : passesFilter cfg e with
    | false =>
      rw [handleEvent_skip env cfg st e hp]
      simp [List.filter_cons, hp]
    | true =>
      rw [handleEvent_pass env cfg st e hp]
      simp only [List.filter_cons, hp, if_true, cursorAfter_cons, List.length_cons, renderAll,
        List.append_assoc, List.singleton_append]
      congr 1
      omega

theorem pollHeader_eq (apiKey : GoString) :
    http.Header.Set (http.Header.Set [] (str "Authorization") (str "Bearer " ++ apiKey))
        (str "Content-Type") (str "application/json") =
      [ (str "Content-Type", [str "application/json"]),
        (str "Authorization", [str "Bearer " ++ apiKey]) ] := by
  have h1 : http.CanonicalMIMEHeaderKey (str "Authorization") = str "Authorization" := by decide
  have h2 : http.CanonicalMIMEHeaderKey (str "Content-Type") = str "Content-Type" := by decide
  have h3 : (str "Authorization" != str "Content-Type") = true := by decide
  simp [http.Header.Set, h1, h2, h3]

/-- The result of `pollEvents` when `http.NewRequest` accepts the URL. -/
theorem pollEvents_ok (newRequestOK : GoString → Bool) (outcome : FetchOutcome)
    (cfg : PollConfig) (afterID : GoString)
    (h : newRequestOK (pollURL cfg.apiURL cfg.zone afterID) = true) :
    pollEvents newRequestOK outcome cfg.apiURL cfg.apiKey cfg.zone afterID =
      some (pollRequest cfg afterID, outcome.events) := by
  unfold pollEvents pollRequest
  simp only [h, if_true, pollHeader_eq]
  cases outcome <;> rfl

/-- One cycle when `http.NewRequest` accepts the URL. -/
theorem pollCycle_ok (env : PollEnv) (cfg : PollConfig) (st : PollState)
    (outcome : FetchOutcome)
    (h : env.newRequestOK (pollURL cfg.apiURL cfg.zone st.lastEventID) = true) :
    pollCycle env cfg st outcome =
      ⟨cursorAfter st.lastEventID (outcome.events.filter (passesFilter cfg)),
        st.clock + (outcome.events.filter (passesFilter cfg)).length,
        st.trace ++ pollRequest cfg st.lastEventID ::
          renderAll env cfg st.clock (outcome.events.filter (passesFilter cfg)),
        st.status⟩ := by
  unfold pollCycle
  rw [pollEvents_ok env.newRequestOK outcome cfg st.lastEventID h]
  simp only [foldl_handleEvent]
  simp

/-- One cycle when `http.NewRequest` rejects the URL. -/
theorem pollCycle_crash (env : PollEnv) (cfg : PollConfig) (st : PollState)
    (outcome : FetchOutcome)
    (h : env.newRequestOK (pollURL cfg.apiURL cfg.zone st.lastEventID) = false) :
    pollCycle env cfg st outcome = ⟨st.lastEventID, st.clock, st.trace, .crashed⟩ := by
  unfold pollCycle pollEvents
  simp [h]

theorem pollStep_not_polling (env : PollEnv) (cfg : PollConfig) (st : PollState) (s : Signal)
    (h : st.status ≠ .polling) : pollStep env cfg st s = st := by
  unfold pollStep
  cases hs : st.status with
  | polling => exact absurd hs h
  | stopped => rfl
  | crashed => rfl

theorem foldl_pollStep_not_polling (env : PollEnv) (cfg : PollConfig) (signals : List Signal)
    (st : PollState) (h : st.status ≠ .polling) :
    signals.foldl (pollStep env cfg) st = st := by
  induction signals with
  | nil => rfl
  | cons s ss ih => rw [List.foldl_cons, pollStep_not_polling env cfg st s h, ih]

theorem pollStep_tick (env : PollEnv) (cfg : PollConfig) (st : PollState)
    (outcome : FetchOutcome) (h : st.status = .polling) :
    pollStep env cfg st (.tick outcome) = pollCycle env cfg st outcome := by
  unfold pollStep
  rw [h]

/-- A cycle that leaves the loop polling was run with a URL that `http.NewRequest` accepts. -/
theorem newRequestOK_of_polling (env : PollEnv) (cfg : PollConfig) (st : PollState)
    (outcome : FetchOutcome) (h : (pollCycle env cfg st outcome).status = .polling) :
    env.newRequestOK (pollURL cfg.apiURL cfg.zone st.lastEventID) = true := by
  cases hn : env.newRequestOK (pollURL cfg.apiURL cfg.zone st.lastEventID) with
  | true => rfl
  | false =>
    rw [pollCycle_crash env cfg st outcome hn] at h
    simp at h

theorem requestURLs_append (a b : List PollEffect) :
    requestURLs (a ++ b) = requestURLs a ++ requestURLs b := by
  induction a with
  | nil => rfl
  | cons e es ih => cases e <;> simp [requestURLs, ih]

theorem requestURLs_renderAll (env : PollEnv) (cfg : PollConfig) (clock : Nat)
    (events : List Event) : requestURLs (renderAll env cfg clock events) = [] := by
  induction events generalizing clock with
  | nil => rfl
  | cons e es ih =>
    unfold renderAll renderLine
    split <;> simp [requestURLs, ih]

theorem printed_append (a b : List PollEffect) : printed (a ++ b) = printed a ++ printed b := by
  induction a with
  | nil => rfl
  | cons e es ih => cases e <;> simp [printed, ih]

theorem printed_renderAll (env : PollEnv) (cfg : PollConfig) (clock : Nat)
    (events : List Event) :
    printed (renderAll env cfg clock events) = renderAll env cfg clock events := by
  induction events generalizing clock with
  | nil => rfl
  | cons e es ih =>
    unfold renderAll
    have hl : ∀ t, printed (renderLine env cfg t e :: renderAll env cfg (clock + 1) es) =
        renderLine env cfg t e :: printed (renderAll env cfg (clock + 1) es) := by
      intro t
      unfold renderLine
      split <;> rfl
    rw [hl, ih]

theorem requestURLs_pollCycle (env : PollEnv) (cfg : PollConfig) (st : PollState)
    (outcome : FetchOutcome)
    (h : env.newRequestOK (pollURL cfg.apiURL cfg.zone st.lastEventID) = true) :
    requestURLs (pollCycle env cfg st outcome).trace =
      requestURLs st.trace ++ [pollURL cfg.apiURL cfg.zone st.lastEventID] := by
  rw [pollCycle_ok env cfg st outcome h]
  simp [requestURLs_append, requestURLs, pollRequest, requestURLs_renderAll]

theorem allEvents_append (a b : List FetchOutcome) :
    allEvents (a ++ b) = allEvents a ++ allEvents b := by
  induction a with
  | nil => rfl
  | cons o os ih => simp [allEvents, ih]

/-- The cursor and the number of requests after a run of ticks that leaves the loop
polling. -/
theorem ticks_invariant (env : PollEnv) (cfg : PollConfig) (os : List FetchOutcome)
    (st : PollState) (hs : st.status = .polling)
    (h : ((os.map Signal.tick).foldl (pollStep env cfg) st).status = .polling) :
    ((os.map Signal.tick).foldl (pollStep env cfg) st).lastEventID =
      cursorAfter st.lastEventID ((allEvents os).filter (passesFilter cfg)) ∧
    (requestURLs ((os.map Signal.tick).foldl (pollStep env cfg) st).trace).length =
      (requestURLs st.trace).length + os.length := by
  induction os generalizing st with
  | nil => simp [allEvents, cursorAfter_nil]
  | cons o rest ih =>
    simp only [List.map_cons, List.foldl_cons] at h ⊢
    rw [pollStep_tick env cfg st o hs] at h ⊢
    have h1 : (pollCycle env cfg st o).status = .polling := by
      by_contra hc
      rw [foldl_pollStep_not_polling env cfg _ _ hc] at h
      exact hc h
    have hn := newRequestOK_of_polling env cfg st o h1
    obtain ⟨ih1, ih2⟩ := ih (pollCycle env cfg st o) h1 h
    refine ⟨?_, ?_⟩
    · rw [ih1, pollCycle_ok env cfg st o hn]
      simp only [allEvents, List.filter_append, cursorAfter_append]
    · rw [ih2, requestURLs_pollCycle env cfg st o hn]
      simp only [List.length_append, List.length_cons, List.length_nil]
      omega

theorem pollURL_after (baseURL zone cursor : GoString) :
    pollURL baseURL zone cursor =
      pollURL baseURL zone (str "") ++ (if cursor = str "" then [] else str "&after=" ++ cursor) := by
  unfold pollURL
  by_cases hc : cursor = str ""
  · simp [hc]
  · by_cases hz : zone = str "" <;> simp [hc, hz]

theorem pollURL_no_cursor (baseURL zone : GoString) :
    pollURL baseURL zone (str "") =
      baseURL ++ str "/v1/events?limit=10" ++ (if zone = str "" then [] else str "&zone=" ++ zone) := by
  unfold pollURL
  by_cases hz : zone = str "" <;> simp [hz]

/-! ## The poll loop: the cursor -/

/-- C11 as amended. When fetches `1..N+1` have been issued (the loop is still polling after
`N+1` ticks), the URL of fetch `N+1` is built with the cursor left by cycles `1..N`: the `id`
string of the last event that passed the filter, or `""` when none passed; and `&after=` is
appended exactly when that string is non-empty, so the parameter is absent when no event
has passed or when the last one that passed has no non-empty string `id`. -/
theorem pollLoop_after_parameter (env : PollEnv) (cfg : PollConfig) (os : List FetchOutcome)
    (o : FetchOutcome)
    (h : (pollLoop env cfg ((os ++ [o]).map Signal.tick)).status = .polling) :
    (requestURLs (pollLoop env cfg ((os ++ [o]).map Signal.tick)).trace)[os.length]? =
      some (pollURL cfg.apiURL cfg.zone
        (cursorAfter (str "") ((allEvents os).filter (passesFilter cfg)))) ∧
    (∀ cursor : GoString, pollURL cfg.apiURL cfg.zone cursor =
      pollURL cfg.apiURL cfg.zone (str "") ++
        (if cursor = str "" then [] else str "&after=" ++ cursor)) := by
  refine ⟨?_, fun cursor => pollURL_after _ _ cursor⟩
  unfold pollLoop at h ⊢
  simp only [List.map_append, List.map_cons, List.map_nil, List.foldl_append, List.foldl_cons,
    List.foldl_nil] at h ⊢
  have hN : ((os.map Signal.tick).foldl (pollStep env cfg) initialPollState).status =
      .polling := by
    by_contra hc
    rw [pollStep_not_polling env cfg _ _ hc] at h
    exact hc h
  obtain ⟨hcur, hlen⟩ := ticks_invariant env cfg os initialPollState rfl hN
  rw [pollStep_tick env cfg _ o hN] at h ⊢
  have hn := newRequestOK_of_polling env cfg _ o h
  rw [requestURLs_pollCycle env cfg _ o hn, hcur]
  have hl : (requestURLs
      ((os.map Signal.tick).foldl (pollStep env cfg) initialPollState).trace).length =
      os.length := by
    rw [hlen]
    simp [initialPollState, requestURLs]
  rw [← hl]
  simp [initialPollState]

/-- C11 as amended, on scenario D: the second fetch carries `after=e1`. -/
theorem pollLoop_after_parameter_witness :
    (pollLoop sampleEnv (sampleConfig (str "payment"))
      (([scenarioD1] ++ [scenarioD2]).map Signal.tick)).status = .polling ∧
    (requestURLs (pollLoop sampleEnv (sampleConfig (str "payment"))
      (([scenarioD1] ++ [scenarioD2]).map Signal.tick)).trace)[1]? =
        some (str "https://api.sapliy.io/v1/events?limit=10&after=e1") :=
  ⟨by decide,
   (pollLoop_after_parameter sampleEnv (sampleConfig (str "payment")) [scenarioD1] scenarioD2
     (by decide)).1.trans (by decide)⟩

/-- C11 as stated fails: with no filter, the first cycle renders `e1` and then an event whose
`id` is the number 42; the second fetch is issued without any `after` parameter, although
two events have been rendered. -/
theorem pollLoop_after_parameter_counterexample :
    printed (pollLoop sampleEnv (sampleConfig (str "")) [.tick sampleMixedIDs]).trace =
      [samplePrinted (str "e1"), samplePrinted (str "")] ∧
    requestURLs (pollLoop sampleEnv (sampleConfig (str ""))
        [.tick sampleMixedIDs, .tick .transportError]).trace =
      [ str "https://api.sapliy.io/v1/events?limit=10",
        str "https://api.sapliy.io/v1/events?limit=10" ] ∧
    ¬ ∃ id : GoString, str "https://api.sapliy.io/v1/events?limit=10" =
        str "https://api.sapliy.io/v1/events?limit=10" ++ str "&after=" ++ id := by
  refine ⟨by decide, by decide, ?_⟩
  rintro ⟨id, h⟩
  have hl := congrArg List.length h
  have h7 : (str "&after=").length = 7 := by decide
  rw [List.length_append, List.length_append, h7] at hl
  omega

/-- C19. An event that passes the filter and whose `id` field is missing or not a string
sets the cursor to `""`.  When it is the last event of a response to pass the filter, the
cursor after the cycle is `""` whatever it was before and whatever was rendered earlier in
the cycle, and the next fetch is issued for the URL without `after` parameter. -/
theorem handleEvent_id_not_string (env : PollEnv) (cfg : PollConfig) (st : PollState)
    (event : Event) (hp : passesFilter cfg event = true)
    (hid : ∀ s, event.lookup (str "id") ≠ some (.string s)) :
    (handleEvent env cfg st event).lastEventID = str "" ∧
    (∀ (pre post : List Event) (o1 o2 : FetchOutcome),
      o1.events = pre ++ event :: post → (∀ e ∈ post, passesFilter cfg e = false) →
      env.newRequestOK (pollURL cfg.apiURL cfg.zone st.lastEventID) = true →
      (pollCycle env cfg st o1).lastEventID = str "" ∧
      (env.newRequestOK (pollURL cfg.apiURL cfg.zone (str "")) = true →
        requestURLs (pollCycle env cfg (pollCycle env cfg st o1) o2).trace =
          requestURLs (pollCycle env cfg st o1).trace ++
            [cfg.apiURL ++ str "/v1/events?limit=10" ++
              (if cfg.zone = str "" then [] else str "&zone=" ++ cfg.zone)])) := by
  have hfield : stringField event (str "id") = str "" := by
    unfold stringField
    cases hl : event.lookup (str "id") with
    | none => rfl
    | some v =>
      cases v with
      | string s => exact absurd hl (hid s)
      | _ => rfl
  refine ⟨?_, ?_⟩
  · rw [handleEvent_pass env cfg st event hp, hfield]
  · intro pre post o1 o2 hev hpost hn
    have hfil : post.filter (passesFilter cfg) = [] := by
      rw [List.filter_eq_nil_iff]
      intro e he
      rw [hpost e he]
      decide
    have hcur : (pollCycle env cfg st o1).lastEventID = str "" := by
      rw [pollCycle_ok env cfg st o1 hn, hev]
      simp only [List.filter_append, List.filter_cons, hp, if_true, hfil, cursorAfter_append,
        cursorAfter_cons, cursorAfter_nil, hfield]
    refine ⟨hcur, ?_⟩
    intro hn2
    rw [requestURLs_pollCycle env cfg _ o2 (by rw [hcur]; exact hn2), hcur, pollURL_no_cursor]

/-- C19, with cursor `e0` and a response holding `e1`, an event whose `id` is the number 42
and an event of another type, under the filter `payment`: after the cycle the cursor is `""`
and the next request has no `after` parameter. -/
theorem handleEvent_id_not_string_witness :
    (passesFilter (sampleConfig (str "payment")) sampleNumericID = true ∧
      sampleNumericID.lookup (str "id") = some (.number (str "42"))) ∧
    sampleCursorState.lastEventID = str "e0" ∧
    (pollCycle sampleEnv (sampleConfig (str "payment")) sampleCursorState
      sampleMixedTypes).lastEventID = str "" ∧
    requestURLs (pollCycle sampleEnv (sampleConfig (str "payment"))
        (pollCycle sampleEnv (sampleConfig (str "payment")) sampleCursorState sampleMixedTypes)
        .transportError).trace =
      [ str "https://api.sapliy.io/v1/events?limit=10&after=e0",
        str "https://api.sapliy.io/v1/events?limit=10" ] :=
  have h := (handleEvent_id_not_string sampleEnv (sampleConfig (str "payment"))
    sampleCursorState sampleNumericID (by decide)
    (fun s hs => absurd
      (show some (JSONValue.number (str "42")) = some (JSONValue.string s) from hs)
      (by simp))).2
    [samplePayment (str "e1")] [sampleOther] sampleMixedTypes .transportError rfl
    (by decide) (by decide)
  ⟨⟨by decide, rfl⟩, rfl, h.1, (h.2 (by decide)).trans (by decide)⟩

/-! ## The poll loop: the filter -/

/-- C12. An event that does not pass the filter leaves the whole loop state, the cursor
included, as it was; the events around it are processed as if it were not in the response;
and a cycle whose response holds only such events ends with the cursor, the clock and the
status it started with, having issued its request and printed nothing. -/
theorem handleEvent_filtered_out (env : PollEnv) (cfg : PollConfig) (st : PollState) :
    (∀ event : Event, passesFilter cfg event = false →
      handleEvent env cfg st event = st) ∧
    (∀ (pre post : List Event) (event : Event), passesFilter cfg event = false →
      (pre ++ event :: post).foldl (handleEvent env cfg) st =
        (pre ++ post).foldl (handleEvent env cfg) st) ∧
    (∀ o : FetchOutcome, (∀ e ∈ o.events, passesFilter cfg e = false) →
      env.newRequestOK (pollURL cfg.apiURL cfg.zone st.lastEventID) = true →
      pollCycle env cfg st o =
        ⟨st.lastEventID, st.clock, st.trace ++ [pollRequest cfg st.lastEventID], st.status⟩) := by
  refine ⟨fun event h => handleEvent_skip env cfg st event h, ?_, ?_⟩
  · intro pre post event h
    rw [List.foldl_append, List.foldl_append, List.foldl_cons,
      handleEvent_skip env cfg _ event h]
  · intro o hall hn
    have hfil : o.events.filter (passesFilter cfg) = [] := by
      rw [List.filter_eq_nil_iff]
      intro e he
      rw [hall e he]
      decide
    rw [pollCycle_ok env cfg st o hn, hfil]
    simp [cursorAfter_nil, renderAll]

/-- C12, under the filter `payment`: a `checkout.completed` event between two payment events
changes nothing, and a response holding only that event leaves the cursor `e0`. -/
theorem handleEvent_filtered_out_witness :
    passesFilter (sampleConfig (str "payment")) sampleOther = false ∧
    handleEvent sampleEnv (sampleConfig (str "payment")) sampleCursorState sampleOther =
      sampleCursorState ∧
    ([samplePayment (str "e1")] ++ sampleOther :: [samplePayment (str "e2")]).foldl
        (handleEvent sampleEnv (sampleConfig (str "payment"))) sampleCursorState =
      ([samplePayment (str "e1")] ++ [samplePayment (str "e2")]).foldl
        (handleEvent sampleEnv (sampleConfig (str "payment"))) sampleCursorState ∧
    (pollCycle sampleEnv (sampleConfig (str "payment")) sampleCursorState
      (.decoded [sampleOther] false)).lastEventID = str "e0" :=
  have h := handleEvent_filtered_out sampleEnv (sampleConfig (str "payment")) sampleCursorState
  ⟨by decide, h.1 sampleOther (by decide),
   h.2.1 [samplePayment (str "e1")] [samplePayment (str "e2")] sampleOther (by decide),
   by rw [h.2.2 (.decoded [sampleOther] false) (by decide) (by decide)]; rfl⟩

/-- C13 as amended. The poller renders an event, and moves the cursor to its `id` string,
exactly when no filter is set or the filter occurs as a substring of the event type;
otherwise the event changes nothing. -/
theorem handleEvent_substring_filter (env : PollEnv) (cfg : PollConfig) (st : PollState)
    (event : Event) :
    ((cfg.filterType = str "" ∨
        ∃ pre post, stringField event (str "type") = pre ++ cfg.filterType ++ post) →
      handleEvent env cfg st event =
        ⟨stringField event (str "id"), st.clock + 1,
          st.trace ++ [renderLine env cfg (env.now st.clock) event], st.status⟩) ∧
    (¬ (cfg.filterType = str "" ∨
        ∃ pre post, stringField event (str "type") = pre ++ cfg.filterType ++ post) →
      handleEvent env cfg st event = st) := by
  refine ⟨?_, ?_⟩
  · intro h
    exact handleEvent_pass env cfg st event ((passesFilter_iff cfg event).2 h)
  · intro h
    apply handleEvent_skip
    cases hp : passesFilter cfg event with
    | false => rfl
    | true => exact absurd ((passesFilter_iff cfg event).1 hp) h

/-- C13 as amended, on the two filters of the claim: under `payment` the event
`payment.succeeded` is rendered and the cursor moves to `e1`; under `payment.*` it is not
rendered, `payment.*` not being a substring of `payment.succeeded`. -/
theorem handleEvent_substring_filter_witness :
    (∃ pre post, stringField (samplePayment (str "e1")) (str "type") =
      pre ++ (sampleConfig (str "payment")).filterType ++ post) ∧
    handleEvent sampleEnv (sampleConfig (str "payment")) initialPollState
        (samplePayment (str "e1")) =
      ⟨str "e1", 1, [samplePrinted (str "e1")], .polling⟩ ∧
    strings.Contains (str "payment.succeeded") (str "payment.*") = false ∧
    handleEvent sampleEnv (sampleConfig (str "payment.*")) initialPollState
        (samplePayment (str "e1")) = initialPollState :=
  have hex : ∃ pre post, stringField (samplePayment (str "e1")) (str "type") =
      pre ++ (sampleConfig (str "payment")).filterType ++ post :=
    ⟨[], str ".succeeded", by decide⟩
  have hno : ¬ ((sampleConfig (str "payment.*")).filterType = str "" ∨
      ∃ pre post, stringField (samplePayment (str "e1")) (str "type") =
        pre ++ (sampleConfig (str "payment.*")).filterType ++ post) := fun h =>
    absurd ((passesFilter_iff (sampleConfig (str "payment.*")) (samplePayment (str "e1"))).2 h)
      (by decide)
  ⟨hex,
   ((handleEvent_substring_filter sampleEnv (sampleConfig (str "payment")) initialPollState
     (samplePayment (str "e1"))).1 (Or.inr hex)).trans (by decide),
   by decide,
   (handleEvent_substring_filter sampleEnv (sampleConfig (str "payment.*")) initialPollState
     (samplePayment (str "e1"))).2 hno⟩

/-- C13 as stated fails in both directions: `matchPattern` accepts `payment.succeeded` for
the pattern `payment.*`, yet the poller with filter `payment.*` skips the event; and
`matchPattern` rejects it for the pattern `payment`, yet the poller with filter `payment`
renders it and moves the cursor. -/
theorem handleEvent_matchPattern_counterexample :
    (matchPattern (str "payment.succeeded") (str "payment.*") = true ∧
      handleEvent sampleEnv (sampleConfig (str "payment.*")) initialPollState
        (samplePayment (str "e1")) = initialPollState) ∧
    (matchPattern (str "payment.succeeded") (str "payment") = false ∧
      handleEvent sampleEnv (sampleConfig (str "payment")) initialPollState
        (samplePayment (str "e1")) =
        ⟨str "e1", 1, [samplePrinted (str "e1")], .polling⟩) := by
  decide

/-! ## The poll loop: rendering, request, failed fetches -/

/-- C14 as amended. A cycle issues one request, built with the cursor, and then renders every
event of its response that passes the filter, in order; what it renders does not depend on
the cursor, so an event rendered in an earlier cycle is rendered again when a later response
holds it.  (In scenario D: `e1` in cycle 1, the request `after=e1`, then `e1` and `e2` in
cycle 2.) -/
theorem pollCycle_renders_all_passing (env : PollEnv) (cfg : PollConfig) (st : PollState)
    (o : FetchOutcome)
    (hn : env.newRequestOK (pollURL cfg.apiURL cfg.zone st.lastEventID) = true) :
    printed (pollCycle env cfg st o).trace =
      printed st.trace ++ renderAll env cfg st.clock (o.events.filter (passesFilter cfg)) ∧
    requestURLs (pollCycle env cfg st o).trace =
      requestURLs st.trace ++ [pollURL cfg.apiURL cfg.zone st.lastEventID] ∧
    (∀ cursor : GoString, env.newRequestOK (pollURL cfg.apiURL cfg.zone cursor) = true →
      printed (pollCycle env cfg ⟨cursor, st.clock, st.trace, st.status⟩ o).trace =
        printed (pollCycle env cfg st o).trace) := by
  have hp : ∀ st1 : PollState,
      env.newRequestOK (pollURL cfg.apiURL cfg.zone st1.lastEventID) = true →
      printed (pollCycle env cfg st1 o).trace =
        printed st1.trace ++
          renderAll env cfg st1.clock (o.events.filter (passesFilter cfg)) := by
    intro st1 h1
    rw [pollCycle_ok env cfg st1 o h1]
    simp only [printed_append]
    rw [show printed (pollRequest cfg st1.lastEventID ::
        renderAll env cfg st1.clock (o.events.filter (passesFilter cfg))) =
        printed (renderAll env cfg st1.clock (o.events.filter (passesFilter cfg))) from rfl,
      printed_renderAll]
  refine ⟨hp st hn, requestURLs_pollCycle env cfg st o hn, ?_⟩
  intro cursor hc
  rw [hp st hn, hp ⟨cursor, st.clock, st.trace, st.status⟩ hc]

/-- C14 as amended, on scenario D under the filter `payment`: cycle 1 renders `e1`; cycle 2
requests `after=e1` and renders `e1` and `e2`. -/
theorem pollCycle_renders_all_passing_witness :
    printed (pollCycle sampleEnv (sampleConfig (str "payment")) initialPollState
      scenarioD1).trace = [samplePrinted (str "e1")] ∧
    requestURLs (pollCycle sampleEnv (sampleConfig (str "payment"))
        (pollCycle sampleEnv (sampleConfig (str "payment")) initialPollState scenarioD1)
        scenarioD2).trace =
      [ str "https://api.sapliy.io/v1/events?limit=10",
        str "https://api.sapliy.io/v1/events?limit=10&after=e1" ] ∧
    printed (pollCycle sampleEnv (sampleConfig (str "payment"))
        (pollCycle sampleEnv (sampleConfig (str "payment")) initialPollState scenarioD1)
        scenarioD2).trace =
      [samplePrinted (str "e1")] ++ [samplePrinted (str "e1"), samplePrinted (str "e2")] :=
  have h1 := pollCycle_renders_all_passing sampleEnv (sampleConfig (str "payment"))
    initialPollState scenarioD1 (by decide)
  have h2 := pollCycle_renders_all_passing sampleEnv (sampleConfig (str "payment"))
    (pollCycle sampleEnv (sampleConfig (str "payment")) initialPollState scenarioD1)
    scenarioD2 (by decide)
  ⟨h1.1.trans (by decide), h2.2.1.trans (by decide), h2.1.trans (by decide)⟩

/-- C14 as stated fails: in scenario D, under the filter `payment`, the loop prints `e1` in
cycle 1 and then, in cycle 2, `e1` again before `e2`, although the request of cycle 2
carries `after=e1`. -/
theorem scenarioD_counterexample :
    printed (pollLoop sampleEnv (sampleConfig (str "payment")) [.tick scenarioD1]).trace =
      [samplePrinted (str "e1")] ∧
    (pollLoop sampleEnv (sampleConfig (str "payment")) scenarioD).trace =
      [ .request (str "GET") (str "https://api.sapliy.io/v1/events?limit=10") sampleHeader,
        samplePrinted (str "e1"),
        .request (str "GET") (str "https://api.sapliy.io/v1/events?limit=10&after=e1")
          sampleHeader,
        samplePrinted (str "e1"),
        samplePrinted (str "e2") ] ∧
    printed (pollLoop sampleEnv (sampleConfig (str "payment")) scenarioD).trace ≠
      [samplePrinted (str "e1")] ++ [samplePrinted (str "e2")] := by
  decide

/-- C15. The URL `pollEvents` builds is the base, `/v1/events?limit=10`, then `&zone=` and
the zone when the zone is non-empty, then `&after=` and the cursor when the cursor is
non-empty.  Every request `pollEvents` issues is a `GET` of that URL whose headers are
`Authorization: Bearer <apiKey>` and `Content-Type: application/json`, and it issues one
whenever `http.NewRequest` accepts the URL. -/
theorem pollEvents_request (newRequestOK : GoString → Bool) (outcome : FetchOutcome)
    (baseURL apiKey zone afterID : GoString) :
    pollURL baseURL zone afterID =
      baseURL ++ str "/v1/events?limit=10" ++
        (if zone = str "" then [] else str "&zone=" ++ zone) ++
        (if afterID = str "" then [] else str "&after=" ++ afterID) ∧
    (∀ (req : PollEffect) (events : List Event),
      pollEvents newRequestOK outcome baseURL apiKey zone afterID = some (req, events) →
      ∃ header : http.Header,
        req = .request (str "GET") (pollURL baseURL zone afterID) header ∧
        header.Get (str "Authorization") = str "Bearer " ++ apiKey ∧
        header.Get (str "Content-Type") = str "application/json" ∧
        header = [ (str "Content-Type", [str "application/json"]),
                   (str "Authorization", [str "Bearer " ++ apiKey]) ]) ∧
    (newRequestOK (pollURL baseURL zone afterID) = true →
      (pollEvents newRequestOK outcome baseURL apiKey zone afterID).isSome = true) := by
  have hget : ∀ header : http.Header,
      header = [ (str "Content-Type", [str "application/json"]),
                 (str "Authorization", [str "Bearer " ++ apiKey]) ] →
      header.Get (str "Authorization") = str "Bearer " ++ apiKey ∧
      header.Get (str "Content-Type") = str "application/json" := by
    intro header hh
    have h1 : http.CanonicalMIMEHeaderKey (str "Authorization") = str "Authorization" := by
      decide
    have h2 : http.CanonicalMIMEHeaderKey (str "Content-Type") = str "Content-Type" := by
      decide
    have h3 : (str "Authorization" == str "Content-Type") = false := by decide
    subst hh
    refine ⟨?_, ?_⟩
    · simp [http.Header.Get, h1, List.lookup, h3]
    · simp [http.Header.Get, h2, List.lookup]
  have hok := pollEvents_ok newRequestOK outcome ⟨baseURL, apiKey, zone, [], false⟩ afterID
  refine ⟨?_, ?_, ?_⟩
  · rw [pollURL_after, pollURL_no_cursor]
  · intro req events hre
    cases hn : newRequestOK (pollURL baseURL zone afterID) with
    | false =>
      unfold pollEvents at hre
      simp [hn] at hre
    | true =>
      rw [hok hn] at hre
      simp only [Option.some.injEq, Prod.mk.injEq] at hre
      refine ⟨_, hre.1.symm, (hget _ rfl).1, (hget _ rfl).2, rfl⟩
  · intro hn
    rw [hok hn]
    rfl

/-- C15, with zone `zone_1` and cursor `e1`. -/
theorem pollEvents_request_witness :
    pollURL (str "https://api.sapliy.io") (str "zone_1") (str "e1") =
      str "https://api.sapliy.io/v1/events?limit=10&zone=zone_1&after=e1" ∧
    pollEvents sampleEnv.newRequestOK .transportError (str "https://api.sapliy.io")
        (str "sk_test") (str "zone_1") (str "e1") =
      some (.request (str "GET")
        (str "https://api.sapliy.io/v1/events?limit=10&zone=zone_1&after=e1") sampleHeader,
        []) ∧
    pollURL (str "https://api.sapliy.io") (str "") (str "") =
      str "https://api.sapliy.io/v1/events?limit=10" :=
  ⟨(pollEvents_request sampleEnv.newRequestOK .transportError (str "https://api.sapliy.io")
      (str "sk_test") (str "zone_1") (str "e1")).1.trans (by decide),
   rfl,
   (pollEvents_request sampleEnv.newRequestOK .transportError (str "https://api.sapliy.io")
      (str "sk_test") (str "") (str "")).1.trans (by decide)⟩

/-- C16 as amended. When `client.Do` fails, or when `Decode` leaves `result.Data` empty
(with or without an error), `pollEvents` returns no event: the cycle issues its one request,
prints nothing, keeps the cursor and leaves the loop polling, so that the next tick runs the
next cycle. -/
theorem pollCycle_failed_fetch (env : PollEnv) (cfg : PollConfig) (st : PollState)
    (o : FetchOutcome) (hs : st.status = .polling)
    (hn : env.newRequestOK (pollURL cfg.apiURL cfg.zone st.lastEventID) = true)
    (hfail : o = .transportError ∨ ∃ err, o = .decoded [] err) :
    pollEvents env.newRequestOK o cfg.apiURL cfg.apiKey cfg.zone st.lastEventID =
      some (pollRequest cfg st.lastEventID, []) ∧
    pollStep env cfg st (.tick o) =
      ⟨st.lastEventID, st.clock, st.trace ++ [pollRequest cfg st.lastEventID], .polling⟩ ∧
    printed (pollStep env cfg st (.tick o)).trace = printed st.trace ∧
    requestURLs (pollStep env cfg st (.tick o)).trace =
      requestURLs st.trace ++ [pollURL cfg.apiURL cfg.zone st.lastEventID] ∧
    (∀ o2 : FetchOutcome, pollStep env cfg (pollStep env cfg st (.tick o)) (.tick o2) =
      pollCycle env cfg (pollStep env cfg st (.tick o)) o2) := by
  have hev : o.events = [] := by
    rcases hfail with h | ⟨err, h⟩ <;> rw [h] <;> rfl
  have hstep : pollStep env cfg st (.tick o) =
      ⟨st.lastEventID, st.clock, st.trace ++ [pollRequest cfg st.lastEventID], .polling⟩ := by
    rw [pollStep_tick env cfg st o hs, pollCycle_ok env cfg st o hn, hev, hs]
    simp [cursorAfter_nil, renderAll]
  refine ⟨?_, hstep, ?_, ?_, ?_⟩
  · rw [pollEvents_ok env.newRequestOK o cfg st.lastEventID hn, hev]
  · rw [hstep]
    simp only [printed_append]
    rw [show printed [pollRequest cfg st.lastEventID] = [] from rfl, List.append_nil]
  · rw [hstep]
    simp [requestURLs_append, requestURLs, pollRequest]
  · intro o2
    rw [hstep]
    rfl

/-- C16 as amended, on a transport error met with cursor `e0`: the cursor stays `e0`, nothing
is printed and the loop is still polling. -/
theorem pollCycle_failed_fetch_witness :
    (sampleCursorState.status = .polling ∧
      sampleEnv.newRequestOK (pollURL (sampleConfig (str "payment")).apiURL
        (sampleConfig (str "payment")).zone sampleCursorState.lastEventID) = true) ∧
    pollStep sampleEnv (sampleConfig (str "payment")) sampleCursorState
        (.tick .transportError) =
      ⟨str "e0", 3,
        [.request (str "GET") (str "https://api.sapliy.io/v1/events?limit=10&after=e0")
          sampleHeader], .polling⟩ ∧
    printed (pollStep sampleEnv (sampleConfig (str "payment")) sampleCursorState
      (.tick (.decoded [] true))).trace = [] :=
  ⟨⟨rfl, by decide⟩,
   (pollCycle_failed_fetch sampleEnv (sampleConfig (str "payment")) sampleCursorState
     .transportError rfl (by decide) (Or.inl rfl)).2.1.trans (by decide),
   (pollCycle_failed_fetch sampleEnv (sampleConfig (str "payment")) sampleCursorState
     (.decoded [] true) rfl (by decide) (Or.inr ⟨true, rfl⟩)).2.2.1⟩

/-- C16 as stated fails: for a body in which one element of `data` is a number, `Decode`
returns an error after storing the other element, and `pollEvents`, which discards that
error, returns two events; under the filter `payment` the cycle prints `e1` and moves the
cursor from `""` to `e1`. -/
theorem partialDecode_counterexample :
    pollEvents sampleEnv.newRequestOK samplePartialDecode (str "https://api.sapliy.io")
        (str "sk_test") (str "") (str "") =
      some (.request (str "GET") (str "https://api.sapliy.io/v1/events?limit=10") sampleHeader,
        [samplePayment (str "e1"), []]) ∧
    initialPollState.lastEventID = str "" ∧
    (pollStep sampleEnv (sampleConfig (str "payment")) initialPollState
      (.tick samplePartialDecode)).lastEventID = str "e1" ∧
    printed (pollStep sampleEnv (sampleConfig (str "payment")) initialPollState
      (.tick samplePartialDecode)).trace = [samplePrinted (str "e1")] :=
  ⟨rfl, rfl, by decide, by decide⟩

end Sapliy
